import Mathlib

/-!
Verification of the research-agent backend: the ReAct control loop
(`backend/app/agents/react_agent.py`) and the multi-provider completion
manager (`backend/app/llm/manager.py`), embedded shallowly in Lean.

External effects (LLM completions, tool connectors, wall-clock time and the
standard-library JSON / Python-literal parsers) are supplied as explicit
oracle inputs; everything the repository code itself computes is translated
directly from the source.
-/

namespace ResearchAgent

/-- A structured tool call carried by an assistant message, as produced by the
completion layer: `{id, function: {name, arguments}}` flattened to its three
string fields. -/
structure ToolCall where
  id : String
  name : String
  arguments : String
deriving Repr, DecidableEq

/-- Message roles used in the conversation history. -/
inductive Role where
  | system
  | user
  | assistant
  | tool
deriving Repr, DecidableEq

/-- One entry of `conversation_history`. A Python dict may simply lack the
`tool_calls` / `tool_call_id` keys; absence is modelled as `[]` resp. `none`
(matching the truthiness tests the source performs). -/
structure Message where
  role : Role
  content : String
  tool_calls : List ToolCall := []
  tool_call_id : Option String := none
deriving Repr, DecidableEq

/-- An assistant message that still carries unresolved tool calls
(`last.get("role") == "assistant" and last.get("tool_calls")`). -/
def isIncompleteAssistant (m : Message) : Bool :=
  m.role == .assistant && !m.tool_calls.isEmpty

/-- A trailing tool message whose `tool_call_id` does not match the FIRST
tool call of the preceding assistant message
(`history[-2]["tool_calls"][0]["id"] != last.get("tool_call_id")`). -/
def isMismatchedToolReply (prev last : Message) : Bool :=
  last.role == .tool && prev.role == .assistant && !prev.tool_calls.isEmpty &&
    decide (prev.tool_calls.head?.map ToolCall.id ≠ last.tool_call_id)

/-- `ResearcherAgent._prune_incomplete_tool_calls`, expressed on the reversed
history: the Python loop repeatedly pops the final entry while it is an
assistant message with tool calls, or a tool reply mismatching the first
tool-call id of the assistant message before it. -/
def pruneRev : List Message → List Message
  | [] => []
  | [m] => if isIncompleteAssistant m then [] else [m]
  | m :: m2 :: rest =>
    if isIncompleteAssistant m then pruneRev (m2 :: rest)
    else if isMismatchedToolReply m2 m then pruneRev (m2 :: rest)
    else m :: m2 :: rest

/-- `ResearcherAgent._prune_incomplete_tool_calls` on the history in its
natural order. -/
def pruneIncompleteToolCalls (history : List Message) : List Message :=
  (pruneRev history.reverse).reverse

/-- The conversation ends with an assistant message holding unresolved tool
calls. -/
def endsWithUnresolvedToolCalls (history : List Message) : Bool :=
  match history.getLast? with
  | some m => isIncompleteAssistant m
  | none => false

/-- Python `str.lower` (ASCII), on the character list so that proofs can
evaluate it. -/
def pyLower (s : String) : String :=
  ⟨s.data.map Char.toLower⟩

/-- Python `str.strip`: drop whitespace from both ends. -/
def pyStrip (s : String) : String :=
  ⟨(((s.data.dropWhile Char.isWhitespace).reverse).dropWhile Char.isWhitespace).reverse⟩

/-- Python substring test `pat in s`: some suffix of `s` starts with `pat`. -/
def containsSub (s pat : String) : Bool :=
  if pat = "" then true
  else (s.data.tails).any (fun t => pat.data.isPrefixOf t)

/-- `ResearcherAgent.GITHUB_KEYWORDS`. -/
def GITHUB_KEYWORDS : List String :=
  ["implementation", "implementations", "library", "libraries", "repo",
   "repos", "repository", "repositories", "code", "codes", "tool", "tools",
   "application", "applications", "framework", "frameworks", "sdk",
   "benchmark", "benchmarks", "open source", "open-source", "github"]

/-- `ResearcherAgent.ARXIV_KEYWORDS`. -/
def ARXIV_KEYWORDS : List String :=
  ["paper", "papers", "research", "study", "studies", "academic", "arxiv",
   "preprint", "pre-print", "theory", "algorithm", "algorithms", "proof",
   "methodology", "evaluation", "neural", "model", "models", "dataset",
   "datasets", "science", "scientific", "physics", "math", "mathematics",
   "statistical", "statistics", "ml", "ai", "artificial intelligence",
   "deep learning", "machine learning", "generative ai", "rag", "llm",
   "data science"]

/-- `technical_signals` inside `_derive_tool_policy`. -/
def TECHNICAL_SIGNALS : List String :=
  ["ai", "ml", "machine learning", "deep learning", "data science", "rag",
   "retrieval augmented", "neural", "model", "algorithm"]

/-- `ResearcherAgent.CURRENT_YEAR`. -/
def CURRENT_YEAR : String := "2025"

/-- The mutable `tool_policy` dict. -/
structure ToolPolicy where
  allow_github : Bool
  allow_arxiv : Bool
  default_tool : String
  sufficient_result_count : Nat
  sparse_result_threshold : Nat
deriving Repr, DecidableEq

/-- `ResearcherAgent._derive_tool_policy`. -/
def deriveToolPolicy (query : String) : ToolPolicy :=
  let text := pyLower query
  let allowGithub0 := GITHUB_KEYWORDS.any (fun kw => containsSub text kw)
  let allowArxiv0 := ARXIV_KEYWORDS.any (fun kw => containsSub text kw)
  let tech := TECHNICAL_SIGNALS.any (fun kw => containsSub text kw)
  let allowGithub := allowGithub0 || tech
  let allowArxiv := allowArxiv0 || tech
  { allow_github := allowGithub
    allow_arxiv := allowArxiv
    default_tool := if allowArxiv && !allowGithub then "arxiv_search" else "web_search"
    sufficient_result_count := if allowArxiv then 5 else 4
    sparse_result_threshold := 2 }

/-- `ResearcherAgent._detect_recency_intent`. -/
def detectRecencyIntent (query : String) : String :=
  let evergreenSignals : List String :=
    ["history", "timeline", "origin", "evolution", "since", "from "]
  let freshSignals : List String :=
    ["latest", "recent", "202", CURRENT_YEAR, "today", "this year",
     "upcoming", "roadmap", "forecast", "trend", "2024"]
  let q := pyLower query
  if freshSignals.any (fun sig => containsSub q sig) then "fresh"
  else if evergreenSignals.any (fun sig => containsSub q sig) then "historical"
  else "general"

/-- `ResearcherAgent._preferred_date_filter`. -/
def preferredDateFilter (recency_intent : String) : Option String :=
  if recency_intent = "fresh" then some "month" else none

/-- `ResearcherAgent._thought_allows_tool`: the reasoning text earns the tool
when it mentions a qualifying keyword. -/
def thoughtAllowsTool (thought : String) (keywords : List String) : Bool :=
  if thought = "" then false
  else
    let lowered := pyLower thought
    keywords.any (fun kw => containsSub lowered kw)

/-- Per-session gating state: the policy flags plus the `_tool_denials`
counters for the two gated tools (the dict starts empty in `__init__`, i.e.
both counters at zero). -/
structure GateState where
  policy : ToolPolicy
  denials_github : Nat := 0
  denials_arxiv : Nat := 0
deriving Repr, DecidableEq

/-- Block message used for `github_search` (wording abridged). -/
def GITHUB_BLOCK_MESSAGE : String :=
  "Tool routing heuristic: stay on web_search or arxiv_search until you discover a concrete need for code repositories, implementations, libraries, or benchmarks."

/-- Block message used for `arxiv_search` (wording abridged). -/
def ARXIV_BLOCK_MESSAGE : String :=
  "Tool routing heuristic: this topic has not been identified as academic yet. Gather more context via web_search unless you uncover explicit scholarly cues."

/-- `ResearcherAgent._is_tool_allowed`. Returns the verdict, the block
message, and the updated gating state (the keyword path flips the allow flag;
a denial increments the counter). -/
def isToolAllowed (s : GateState) (tool_name thought : String) :
    Bool × String × GateState :=
  if tool_name = "github_search" then
    if s.policy.allow_github then (true, "", s)
    else if s.denials_github ≥ 1 then (true, "", s)
    else if thoughtAllowsTool thought GITHUB_KEYWORDS then
      (true, "", { s with policy := { s.policy with allow_github := true } })
    else
      (false, GITHUB_BLOCK_MESSAGE,
        { s with denials_github := s.denials_github + 1 })
  else if tool_name = "arxiv_search" then
    if s.policy.allow_arxiv then (true, "", s)
    else if s.denials_arxiv ≥ 1 then (true, "", s)
    else if thoughtAllowsTool thought ARXIV_KEYWORDS then
      (true, "", { s with policy := { s.policy with allow_arxiv := true } })
    else
      (false, ARXIV_BLOCK_MESSAGE,
        { s with denials_arxiv := s.denials_arxiv + 1 })
  else (true, "", s)

/-- Sparse-hint guidance text (wording abridged; the source interpolates the
query, the count and a recency-tailored tail). -/
def sparseGuidance (recency_intent query : String) (result_count : Nat) : String :=
  let recencyHint :=
    if recency_intent = "fresh" then
      " Because the topic is time-sensitive, try setting a tighter date_filter or adding fresher keywords."
    else if recency_intent = "historical" then
      " Stick with the historical framing; avoid forcing current-year filters unless specified."
    else ""
  "Web search for " ++ query ++ " returned only " ++ toString result_count ++
    " relevant results. Refine the query with more specific keywords, synonyms, recency filters, or site and domain operators and run web_search again before moving on." ++
    recencyHint

/-- `ResearcherAgent._handle_sparse_web_results`: returns the system hint to
append (if any) and the new `_last_sparse_query`. -/
def handleSparseWebResults (sparse_result_threshold : Nat)
    (recency_intent : String) (last_sparse_query : Option String)
    (query : Option String) (result_count : Option Nat) :
    Option Message × Option String :=
  let threshold := max 1 sparse_result_threshold
  match result_count with
  | none => (none, last_sparse_query)
  | some c =>
    if c > threshold then (none, last_sparse_query)
    else
      match query with
      | none => (none, last_sparse_query)
      | some q =>
        if q = "" ∨ last_sparse_query = some q then (none, last_sparse_query)
        else
          (some { role := .system, content := sparseGuidance recency_intent q c },
           some q)

/-- The argument payload of a tool call, modelled by the projections the loop
reads: `report` and `sources` (for `finish`), `query` (for `web_search`) and
the `__raw_arguments` marker set by the repair chain. `none` means the key is
absent from the dict. -/
structure Payload where
  report : Option String := none
  sources : Option (List String) := none
  query : Option String := none
  raw_arguments : Option String := none
deriving Repr, DecidableEq

/-- `ResearcherAgent._handle_malformed_arguments`. `litParse` abstracts the
standard-library `ast.literal_eval` restricted to dict results (any
non-dict result or parse error is `none`). -/
def handleMalformedArguments (litParse : String → Option Payload)
    (action_name raw_arguments : String) : Payload :=
  let text := pyStrip raw_arguments
  if text = "" then {}
  else
    match litParse text with
    | some d => d
    | none =>
      if action_name = "finish" then
        { report := some text, sources := some [], raw_arguments := some text }
      else { raw_arguments := some text }

/-- The strict-then-repaired argument parse performed for every tool call in
the loop: `json.loads` (abstracted as `strictParse`) with
`_handle_malformed_arguments` as the fallback. -/
def parseToolArguments (strictParse litParse : String → Option Payload)
    (action_name raw : String) : Payload :=
  match strictParse raw with
  | some d => d
  | none => handleMalformedArguments litParse action_name raw

/-- The JSON decision object the Finish Guard is asked for; `none` fields
model absent keys. `json.loads` is abstracted as the `jsonParse` oracle. -/
structure GuardDecision where
  allow_finish : Option Bool := none
  feedback : Option String := none
  next_action_hint : Option String := none
deriving Repr, DecidableEq

/-- Fenced-segment scan of `_parse_guard_response`: strip each segment, skip
empty ones, drop a leading `json` tag, return the first parse success. -/
def firstParsedSegment (jsonParse : String → Option GuardDecision) :
    List String → Option GuardDecision
  | [] => none
  | seg :: rest =>
    let s := pyStrip seg
    if s = "" then firstParsedSegment jsonParse rest
    else
      let s := if "json".data.isPrefixOf (pyLower s).data then pyStrip ⟨s.data.drop 4⟩ else s
      match jsonParse s with
      | some d => some d
      | none => firstParsedSegment jsonParse rest

/-- `ResearcherAgent._parse_guard_response`: strict parse of the stripped
content, then fenced-block recovery, else the empty dict. -/
def parseGuardResponse (jsonParse : String → Option GuardDecision)
    (content : Option String) : GuardDecision :=
  match content with
  | none => {}
  | some c =>
    if c = "" then {}
    else
      match jsonParse (pyStrip c) with
      | some d => d
      | none =>
        if containsSub c "```" then
          match firstParsedSegment jsonParse (c.splitOn "```") with
          | some d => d
          | none => {}
        else {}

/-- Outcome of the guard completion call, supplied by the environment:
either the call raises, or it returns with the given `content`. -/
inductive GuardCallResult where
  | raise
  | ok (content : Option String)
deriving Repr, DecidableEq

/-- `ResearcherAgent._run_finish_guard`, decision part: an exception defaults
to approval; otherwise the parsed decision is applied with `allow_finish`
defaulting to `True` when absent. -/
def runFinishGuard (jsonParse : String → Option GuardDecision)
    (call : GuardCallResult) : Bool × String × Option String :=
  match call with
  | .raise => (true, "Finish guard unavailable; proceeding.", none)
  | .ok content =>
    let decision := parseGuardResponse jsonParse content
    let allow := decision.allow_finish.getD true
    let fb0 := decision.feedback.getD ""
    let feedback :=
      if fb0 = "" then
        if allow then "Coverage looks solid; ready to finalize." else ""
      else fb0
    (allow, feedback, decision.next_action_hint)

/-- The guard prompt messages (wording abridged; exact prompt text is a
non-goal). The request always ends with a user message. -/
def buildGuardMessages (query : String) (finish_args : Payload) : List Message :=
  let report := finish_args.report.getD ""
  let sources := finish_args.sources.getD []
  let joined := String.intercalate "\n" ((sources.take 12).map (fun s => "- " ++ s))
  let sourcesExcerpt := if joined = "" then "None provided" else joined
  [ { role := .system,
      content := "You are a critical reviewer deciding if the report can finish." },
    { role := .user,
      content := "Assess whether the draft Deep Research Report is complete, well-sourced, and ready. Reply with strict JSON. Query: "
        ++ query ++ " Draft report: " ++ (⟨report.data.take 4000⟩ : String)
        ++ " Sources: " ++ sourcesExcerpt } ]

/-- The three provider identities `LLMProvider` can name. -/
inductive ProviderId where
  | openai
  | gemini
  | openrouter
deriving Repr, DecidableEq

/-- `LLMManager` health state shared across sessions:
`provider_failure_counts` (a defaultdict, absent entries read as 0) and
`disabled_providers` (absent entries mean enabled). Timestamps are seconds. -/
structure ManagerState where
  failure_counts : ProviderId → Nat
  disabled_until : ProviderId → Option Nat

/-- `LLMManager._register_failure`: increment the consecutive-failure counter
and, once it reaches the threshold (2 for the primary provider, 3 for a
fallback), disable the provider for 5 minutes (300 seconds). -/
def registerFailure (primary : ProviderId) (now : Nat) (st : ManagerState)
    (p : ProviderId) : ManagerState :=
  let newCount := st.failure_counts p + 1
  let threshold := if p = primary then 2 else 3
  let st1 : ManagerState :=
    { st with failure_counts := fun q => if q = p then newCount else st.failure_counts q }
  if newCount ≥ threshold then
    { st1 with disabled_until := fun q => if q = p then some (now + 300) else st.disabled_until q }
  else st1

/-- `LLMManager._reset_failure` on success: zero the counter and clear any
disablement. -/
def resetFailure (st : ManagerState) (p : ProviderId) : ManagerState :=
  { failure_counts := fun q => if q = p then 0 else st.failure_counts q
    disabled_until := fun q => if q = p then none else st.disabled_until q }

/-- The deletion `_is_disabled` performs when the cool-down has elapsed. -/
def expireDisablement (now : Nat) (st : ManagerState) (p : ProviderId) :
    ManagerState :=
  match st.disabled_until p with
  | some t =>
    if now ≥ t then
      { st with disabled_until := fun q => if q = p then none else st.disabled_until q }
    else st
  | none => st

/-- The boolean verdict of `LLMManager._is_disabled`: disabled exactly while
`now` is strictly before the recorded expiry. -/
def isDisabledB (now : Nat) (st : ManagerState) (p : ProviderId) : Bool :=
  match st.disabled_until p with
  | none => false
  | some t => now < t

/-- Outcome of one adapter attempt, supplied by the environment: the vendor
call raises, or returns content plus structured tool calls. -/
inductive AttemptResult where
  | raise
  | ok (content : String) (tool_calls : List ToolCall)
deriving Repr, DecidableEq

/-- The semantic-validity flags of `LLMManager.complete`. -/
structure CompleteFlags where
  require_content : Bool := false
  require_tool_calls : Bool := false
  tools_provided : Bool := false
  retry_on_failure : Bool := true
deriving Repr, DecidableEq

/-- A candidate attempt is a success only if the call returns without error
AND (if `require_content`) the text is non-empty AND (if `require_tool_calls`
and tools were offered) at least one tool call is present. -/
def attemptSucceeds (flags : CompleteFlags) : AttemptResult → Bool
  | .raise => false
  | .ok content tcs =>
    !(flags.require_content && pyStrip content == "") &&
      !(flags.require_tool_calls && flags.tools_provided && tcs.isEmpty)

/-- The successful result of `complete`, tagged with `provider_used`. -/
structure CompletionResult where
  content : String
  tool_calls : List ToolCall
  provider_used : ProviderId
deriving Repr, DecidableEq

/-- What one `complete` call produces: the result (`none` models the raised
aggregate error after exhausting every candidate), the updated shared health
state, and the providers actually attempted, in order. -/
structure CompleteOutcome where
  result : Option CompletionResult
  state : ManagerState
  attempted : List ProviderId

/-- The candidate loop of `LLMManager.complete`: skip unconfigured or
circuit-open providers; on semantic success reset the failure counter and
return tagged with the serving provider; on failure register the failure and
move on. -/
def completeAux (primary : ProviderId) (configured : ProviderId → Bool)
    (behavior : ProviderId → AttemptResult) (flags : CompleteFlags) (now : Nat) :
    List ProviderId → ManagerState → List ProviderId → CompleteOutcome
  | [], st, attempted => ⟨none, st, attempted⟩
  | p :: rest, st, attempted =>
    if configured p = true then
      let st1 := expireDisablement now st p
      if isDisabledB now st1 p then
        completeAux primary configured behavior flags now rest st1 attempted
      else
        let attempted2 := attempted ++ [p]
        match behavior p with
        | .ok content tcs =>
          if attemptSucceeds flags (.ok content tcs) then
            ⟨some ⟨content, tcs, p⟩, resetFailure st1 p, attempted2⟩
          else
            completeAux primary configured behavior flags now rest
              (registerFailure primary now st1 p) attempted2
        | .raise =>
          completeAux primary configured behavior flags now rest
            (registerFailure primary now st1 p) attempted2
    else completeAux primary configured behavior flags now rest st attempted

/-- `LLMManager.complete`: attempt order is the primary followed by the
configured fallbacks excluding the primary; an unconfigured primary raises
up front (modelled as `none` with nothing attempted). -/
def managerComplete (primary : ProviderId) (fallback_order : List ProviderId)
    (configured : ProviderId → Bool) (behavior : ProviderId → AttemptResult)
    (flags : CompleteFlags) (now : Nat) (st : ManagerState) : CompleteOutcome :=
  if configured primary = true then
    let sequence := primary :: fallback_order.filter (fun p => p ≠ primary)
    completeAux primary configured behavior flags now sequence st []
  else ⟨none, st, []⟩

/-- One recorded step of the ReAct loop (`AgentStep`), kept to the fields the
control flow computes; timestamps, token counts, cost and latency are
externally measured metrics merely copied from the response and are omitted. -/
structure AgentStep where
  iteration : Nat
  thought : String
  action : String
  action_input : Payload
  observation : String
deriving Repr, DecidableEq

/-- Session configuration: the query plus the `__init__` knobs the claims
touch. -/
structure SessionConfig where
  query : String
  max_iterations : Nat := 10
  finish_guard_enabled : Bool := true
  finish_guard_retry_on_auto_finish : Bool := true
deriving Repr, DecidableEq

/-- Outcome of one `llm.complete` call, supplied by the environment: the call
raises, or returns content and tool calls (the manager guarantees nothing
more to the loop). -/
inductive LLMResult where
  | raise (msg : String)
  | ok (content : String) (tool_calls : List ToolCall)
deriving Repr, DecidableEq

/-- Outcome of executing one tool call, supplied by the environment. The
connector result dict is abstracted to the observation string finally
appended and the inferred result count; `timeout` is the caught
`asyncio.TimeoutError`, `raise` any other exception (which escapes to the
iteration-level handler). -/
inductive ExecOutcome where
  | ok (observation : String) (result_count : Nat)
  | timeout
  | raise (msg : String)
deriving Repr, DecidableEq

/-- Environment for one requested tool call: the guard completion outcome
(used only if the call is `finish`) and the execution outcome (used
otherwise). -/
structure CallEnv where
  guard : GuardCallResult := .ok none
  exec : ExecOutcome := .ok "" 0
deriving Repr, DecidableEq

/-- Environment for one loop iteration: whether the wall-clock check at the
top fires, the reasoning completion outcome, and one `CallEnv` per requested
tool call. -/
structure IterEnv where
  timeout_hit : Bool := false
  llm : LLMResult := .ok "" []
  calls : List CallEnv := []
deriving Repr, DecidableEq

/-- Environment for `_force_finish_if_needed`: the forced completion, the
auto-finish guard call, and the single feedback-retry completion. -/
structure ForceEnv where
  llm : LLMResult := .raise ""
  guard : GuardCallResult := .ok none
  retry : LLMResult := .raise ""
deriving Repr, DecidableEq

/-- The session-local mutable state of `ResearcherAgent.research`, together
with ghost observers (`requests`, `forced_calls`, `sparse_hints`) recording
what was sent to the completion layer, how many forced-finish requests were
issued, and which queries received a sparse hint. -/
structure LoopState where
  history : List Message
  steps : List AgentStep := []
  iteration : Nat := 0
  done : Bool := false
  error : Option String := none
  final_report : String := ""
  sources : List String := []
  gate : GateState
  recency_intent : String := "general"
  last_sparse_query : Option String := none
  usage_web : Nat := 0
  usage_arxiv : Nat := 0
  usage_github : Nat := 0
  early_evidence_sufficient : Bool := false
  last_guidance_missing : Option (List String) := none
  requests : List (List Message) := []
  forced_calls : Nat := 0
  sparse_hints : List String := []
deriving Repr, DecidableEq

/-- The terminal artifact (`ResearchResult`) restricted to the fields the
claims concern, plus the ghost observers. -/
structure SessionResult where
  status : String
  total_iterations : Nat
  report : String
  sources : List String
  steps : List AgentStep
  error : Option String
  requests : List (List Message)
  forced_calls : Nat
  auto_finish_succeeded : Bool
  gate : GateState
  sparse_hints : List String
deriving Repr, DecidableEq

/-- Abridged stand-in for `SYSTEM_PROMPT` (exact wording is a spec
non-goal). -/
def SYSTEM_PROMPT_STUB : String :=
  "You are a senior research analyst operating with the ReAct pattern."

/-- The kickoff user message opening every session. -/
def kickoffUserMessage (query : String) : String :=
  "You are about to start the research process described above. Restate the plan and begin reasoning about the query: " ++ query

/-- The continuation prompt appended when the history does not end with a
user message. -/
def CONTINUE_PROMPT : String :=
  "Continue with the next action or finish if you have enough information."

/-- Abridged auto-finish instruction of `_force_finish_if_needed`. -/
def AUTO_FINISH_INSTRUCTION : String :=
  "You have reached the iteration limit. Using only the observations gathered so far, call the finish tool now and generate the Deep Research Report. Do NOT call any other tools."

/-- Default rejection text when the guard gives no feedback. -/
def FINISH_REJECTION_DEFAULT : String :=
  "Finish guard check failed: gather at least one more high-quality source before calling finish again."

/-- Structured timeout observation text (abridged; the source interpolates
the configured seconds). -/
def toolTimeoutMessage (name : String) : String :=
  "Tool " ++ name ++ " timed out"

/-- `ResearcherAgent._build_tool_policy_message` (hint wording abridged). -/
def buildToolPolicyMessage (policy : ToolPolicy) (recency_intent : String) : String :=
  let hints : List String :=
    ["Tool routing guidance: default to web_search for broad discovery."]
  let hints := hints ++
    (if recency_intent = "fresh" then
      ["This topic appears time-sensitive. Prefer web_search with a tight date_filter to capture the latest developments before using other tools."]
    else if recency_intent = "historical" then
      ["This topic reads as historical; avoid forcing recency filters unless explicitly requested and focus on core context."]
    else [])
  let hints := hints ++
    (if policy.default_tool = "arxiv_search" then
      ["The topic reads as academic, so consider starting with arxiv_search before general web coverage."]
    else [])
  let hints := hints ++
    (if policy.allow_github then []
     else ["Skip github_search unless you explicitly see references to implementations, repositories, benchmarks, or SDKs."])
  let hints := hints ++
    (if policy.allow_arxiv then []
     else ["Use arxiv_search only if later evidence shows a clear need for scholarly or scientific sources."])
  String.intercalate " " hints

/-- First-occurrence deduplication used by `_fallback_thought`. -/
def dedupKeepFirst (l : List String) : List String :=
  l.foldl (fun acc name => if name ∈ acc then acc else acc ++ [name]) []

/-- `ResearcherAgent._fallback_thought`: a placeholder reasoning text when
the model omitted content but did call tools. -/
def fallbackThought (tool_calls : List ToolCall) (iteration : Nat) : String :=
  if tool_calls.isEmpty then
    "Iteration " ++ toString iteration ++ ": continuing reasoning without explicit notes."
  else
    let names := (tool_calls.map ToolCall.name).filter (fun n => n ≠ "")
    let deduped := dedupKeepFirst names
    if deduped.isEmpty then
      "Iteration " ++ toString iteration ++ ": planning next action."
    else
      "Planning to call " ++ String.intercalate ", " deduped ++
        " based on the previous observation set; goal is to close remaining evidence gaps."

/-- Guidance text of `_inject_domain_guidance`. -/
def domainGuidance (missing : List String) : String :=
  "Optional coverage reminder: consider evidence from " ++
    String.intercalate ", " missing ++
    " if it would materially improve coverage. Use one of these tools only if justified by the query."

/-- `ResearcherAgent._missing_domain_tools` over the fixed
`domain_tools = [web_search, arxiv_search, github_search]`. -/
def missingDomainTools (st : LoopState) : List String :=
  (if st.usage_web = 0 then ["web_search"] else []) ++
    (if st.usage_arxiv = 0 then ["arxiv_search"] else []) ++
    (if st.usage_github = 0 then ["github_search"] else [])

/-- `ResearcherAgent._inject_domain_guidance`: remind about missing
discovery channels, at most once per distinct missing set in a row. -/
def injectDomainGuidance (st : LoopState) : LoopState :=
  if st.early_evidence_sufficient then { st with last_guidance_missing := none }
  else
    let missing := missingDomainTools st
    if missing = [] then { st with last_guidance_missing := none }
    else if st.last_guidance_missing = some missing then st
    else
      { st with
        history := st.history ++ [{ role := .system, content := domainGuidance missing }]
        last_guidance_missing := some missing }

/-- `ResearcherAgent._record_tool_usage`. -/
def recordToolUsage (st : LoopState) (name : String) (success : Bool) : LoopState :=
  if success then
    if name = "web_search" then
      { st with usage_web := st.usage_web + 1, last_guidance_missing := none }
    else if name = "arxiv_search" then
      { st with usage_arxiv := st.usage_arxiv + 1, last_guidance_missing := none }
    else if name = "github_search" then
      { st with usage_github := st.usage_github + 1, last_guidance_missing := none }
    else st
  else st

/-- `ResearcherAgent._maybe_mark_sufficient_evidence`. -/
def maybeMarkSufficientEvidence (st : LoopState) (name : String)
    (result_count : Nat) : LoopState :=
  if st.early_evidence_sufficient then st
  else
    let min_results := max 3 st.gate.policy.sufficient_result_count
    let default_tool := st.gate.policy.default_tool
    if result_count ≥ min_results ∧ st.iteration ≤ 3 ∧
        (name = default_tool ∨ name = "web_search" ∨ name = "arxiv_search") then
      { st with early_evidence_sufficient := true }
    else st

/-- Default environment for a tool call the supplied `CallEnv` list does not
cover. -/
def DEFAULT_CALL_ENV : CallEnv := {}

/-- Append a tool-result message answering call `tcid`. -/
def appendToolMessage (st : LoopState) (tcid content : String) : LoopState :=
  { st with history := st.history ++
    [{ role := .tool, content := content, tool_call_id := some tcid }] }

/-- The tail of a guard-rejected `finish` call: feed the rejection (plus the
next-step hint) back as the tool result, and add the system guidance when a
hint was given; the session keeps looping. -/
def rejectTail (tcid rejection : String) (hint : Option String)
    (st : LoopState) : LoopState :=
  let tail :=
    match hint with
    | some h => if h = "" then "" else " Next step: " ++ h
    | none => ""
  let st := appendToolMessage st tcid (rejection ++ tail)
  match hint with
  | some h =>
    if h = "" then st
    else { st with history := st.history ++
      [{ role := .system, content := "Finish guard guidance: " ++ h ++ " Use the most relevant tool to close the gap." }] }
  | none => st

/-- The tail of one executed (non-finish, allowed) tool call: update the
adaptive-evidence flag and usage counters, append the observation, run the
sparse-web-results hook, and materialize the `AgentStep` when this is the
first call of the reply (`idx == 0`). -/
def execTail (action_name thought observation : String) (action_input : Payload)
    (tc : ToolCall) (idx : Nat) (tool_success : Bool) (result_count : Nat)
    (st : LoopState) : LoopState :=
  let st := maybeMarkSufficientEvidence st action_name result_count
  let st := recordToolUsage st action_name tool_success
  let st := { st with history := st.history ++
    [{ role := .tool, content := observation, tool_call_id := some tc.id }] }
  let st :=
    if action_name = "web_search" then
      let hs := handleSparseWebResults st.gate.policy.sparse_result_threshold
        st.recency_intent st.last_sparse_query action_input.query (some result_count)
      match hs.1 with
      | some m =>
        { st with
          history := st.history ++ [m]
          last_sparse_query := hs.2
          sparse_hints := st.sparse_hints ++ [hs.2.getD ""] }
      | none => { st with last_sparse_query := hs.2 }
    else st
  if idx = 0 then
    let first_step : AgentStep :=
      { iteration := st.iteration
        thought := thought
        action := action_name
        action_input := action_input
        observation := observation }
    { st with steps := st.steps ++ [first_step] }
  else st

/-- The per-reply tool-call processing loop (body of
`for idx, tool_call in enumerate(tool_calls)`): parse-and-repair arguments,
apply gating, run the Finish Guard on `finish`, execute other tools, append
observations and record the first call as the iteration step. The second
component carries an exception escaping to the iteration handler. -/
def processCalls (jp : String → Option GuardDecision)
    (strictParse litParse : String → Option Payload) (query thought : String) :
    Nat → List ToolCall → List CallEnv → LoopState → LoopState × Option String
  | _, [], _, st => (st, none)
  | idx, tc :: restCalls, envs, st =>
    let cenv := envs.headD DEFAULT_CALL_ENV
    let envRest := envs.tail
    let action_name := tc.name
    let action_input := parseToolArguments strictParse litParse action_name tc.arguments
    let gateResult := isToolAllowed st.gate action_name thought
    let st := { st with gate := gateResult.2.2 }
    if gateResult.1 = false then
      processCalls jp strictParse litParse query thought (idx + 1) restCalls envRest
        (appendToolMessage st tc.id gateResult.2.1)
    else if action_name = "finish" then
      let st := { st with requests := st.requests ++ [buildGuardMessages query action_input] }
      let g := runFinishGuard jp cenv.guard
      if g.1 = false then
        let rejection := if g.2.1 = "" then FINISH_REJECTION_DEFAULT else g.2.1
        processCalls jp strictParse litParse query thought (idx + 1) restCalls envRest
          (rejectTail tc.id rejection g.2.2 st)
      else
        let finish_step : AgentStep :=
          { iteration := st.iteration
            thought := thought
            action := "finish"
            action_input := action_input
            observation := "Final report generated" }
        let st := { st with
          final_report := action_input.report.getD ""
          sources := action_input.sources.getD []
          done := true
          steps := st.steps ++ [finish_step] }
        (st, none)
    else
      match cenv.exec with
      | .raise msg => (st, some msg)
      | .timeout =>
        processCalls jp strictParse litParse query thought (idx + 1) restCalls envRest
          (execTail action_name thought (toolTimeoutMessage action_name) action_input
            tc idx false 0 st)
      | .ok obs cnt =>
        processCalls jp strictParse litParse query thought (idx + 1) restCalls envRest
          (execTail action_name thought obs action_input tc idx true cnt st)

/-- The request-preparation phase at the top of each iteration (lines 340 to
356 of `research`): prune trailing incomplete tool-call turns, append the
continuation prompt when the history does not end with a user message, inject
the domain-coverage reminder, and record the conversation about to be sent. -/
def buildRequestState (st : LoopState) : LoopState :=
  let st := { st with history := pruneIncompleteToolCalls st.history }
  let st :=
    if st.history.length > 1 ∧ st.history.getLast?.map Message.role ≠ some Role.user then
      { st with history := st.history ++ [{ role := .user, content := CONTINUE_PROMPT }] }
    else st
  let st := injectDomainGuidance st
  { st with requests := st.requests ++ [st.history] }

/-- Handling of a successful reasoning completion (lines 382 to 753): derive
the thought (synthesizing a placeholder when content is empty but tools were
called), prompt again when no tool was called, otherwise append the assistant
turn and process the calls; an escaped exception sets the error and breaks. -/
def handleReply (jp : String → Option GuardDecision)
    (strictParse litParse : String → Option Payload) (query : String)
    (st : LoopState) (content : String) (tcs : List ToolCall)
    (cenvs : List CallEnv) : LoopState × Bool :=
  let thought :=
    if pyStrip content = "" ∧ tcs ≠ [] then fallbackThought tcs st.iteration
    else content
  if tcs.isEmpty then
    ({ st with history := st.history ++
      [{ role := .assistant,
         content := if thought = "" then "I need to take an action." else thought }] },
     false)
  else
    let st := { st with history := st.history ++
      [{ role := .assistant, content := thought, tool_calls := tcs }] }
    let pr := processCalls jp strictParse litParse query thought 0 tcs cenvs st
    match pr.2 with
    | some msg => ({ pr.1 with error := some msg }, true)
    | none => (pr.1, pr.1.done)

/-- One pass of the `while not done and iteration < max_iterations` body.
Returns the new state and whether the loop breaks (timeout, exception, or an
approved finish). -/
def runIteration (jp : String → Option GuardDecision)
    (strictParse litParse : String → Option Payload) (cfg : SessionConfig)
    (st : LoopState) (env : IterEnv) : LoopState × Bool :=
  let st := { st with iteration := st.iteration + 1 }
  if env.timeout_hit then ({ st with error := some "Timeout exceeded" }, true)
  else
    let st := buildRequestState st
    match env.llm with
    | .raise msg => ({ st with error := some msg }, true)
    | .ok content tcs => handleReply jp strictParse litParse cfg.query st content tcs env.calls

/-- The bounded ReAct loop: run iterations while not done and under the
budget, stopping early on a break. The environment list bounds how much
behaviour the oracle prescribes; an exhausted list simply stops the loop. -/
def runLoop (jp : String → Option GuardDecision)
    (strictParse litParse : String → Option Payload) (cfg : SessionConfig) :
    List IterEnv → LoopState → LoopState
  | [], st => st
  | env :: rest, st =>
    if st.done = false ∧ st.iteration < cfg.max_iterations then
      let r := runIteration jp strictParse litParse cfg st env
      if r.2 then r.1 else runLoop jp strictParse litParse cfg rest r.1
    else st

/-- Lines 1033 to 1044 of `_force_finish_if_needed`: prune the history,
append the auto-finish instruction, and issue the forced completion request
(recorded with the forced-call counter). -/
def forceFinishSetup (st : LoopState) : LoopState :=
  let st := { st with history := pruneIncompleteToolCalls st.history }
  let auto_msg : Message := { role := .user, content := AUTO_FINISH_INSTRUCTION }
  let st := { st with history := st.history ++ [auto_msg] }
  { st with
    requests := st.requests ++ [st.history]
    forced_calls := st.forced_calls + 1 }

/-- Lines 1080 to 1084: feed the guard feedback (and optional hint) back as
system messages and issue the single feedback-retry request. -/
def retrySetup (feedback : String) (hint : Option String) (st : LoopState) :
    LoopState :=
  let fb_msg : Message :=
    { role := .system
      content := "Finish guard feedback: " ++ feedback ++ " Revise the report using ONLY existing observations; do not call any tools. Then call finish again." }
  let st := { st with history := st.history ++ [fb_msg] }
  let st :=
    match hint with
    | some h =>
      if h = "" then st
      else
        let hint_msg : Message := { role := .system, content := "Next step: " ++ h }
        { st with history := st.history ++ [hint_msg] }
    | none => st
  { st with
    requests := st.requests ++ [st.history]
    forced_calls := st.forced_calls + 1 }

/-- Shared tail of `_force_finish_if_needed`: append the assistant turn (the
FIRST forced reply's tool calls) and the synthetic observation, and build the
auto-finish step. -/
def forceFinishTail (tcs : List ToolCall) (iteration : Nat) (thought : String)
    (finish_call : ToolCall) (args : Payload) (report : String)
    (srcs : List String) (st : LoopState) :
    Bool × String × List String × Option AgentStep × LoopState :=
  let assistant_msg : Message := { role := .assistant, content := thought, tool_calls := tcs }
  let tool_msg : Message :=
    { role := .tool
      content := "Final report generated automatically."
      tool_call_id := some finish_call.id }
  let st := { st with history := st.history ++ [assistant_msg, tool_msg] }
  let step : AgentStep :=
    { iteration := iteration
      thought := thought
      action := "finish"
      action_input := args
      observation := "Final report generated automatically." }
  (true, report, srcs, some step, st)

/-- `ResearcherAgent._force_finish_if_needed`: prune, demand a forced
`finish`, optionally consult the guard with a single feedback-retry, and
report success with the assembled report. Note the forced path parses
arguments with plain `json.loads` and fails (no repair chain) when that
parse fails. -/
def forceFinish (jp : String → Option GuardDecision)
    (strictParse : String → Option Payload) (cfg : SessionConfig)
    (fenv : ForceEnv) (iteration : Nat) (st : LoopState) :
    Bool × String × List String × Option AgentStep × LoopState :=
  let st := forceFinishSetup st
  match fenv.llm with
  | .raise _ => (false, "", [], none, st)
  | .ok content tcs =>
    match tcs with
    | [] => (false, "", [], none, st)
    | fc :: _ =>
      match strictParse fc.arguments with
      | none => (false, "", [], none, st)
      | some args0 =>
        let report0 := args0.report.getD ""
        let srcs0 := args0.sources.getD []
        if cfg.finish_guard_enabled then
          let st := { st with requests := st.requests ++ [buildGuardMessages cfg.query args0] }
          let g := runFinishGuard jp fenv.guard
          if g.1 = false ∧ cfg.finish_guard_retry_on_auto_finish then
            let st := retrySetup g.2.1 g.2.2 st
            match fenv.retry with
            | .raise _ => forceFinishTail tcs iteration content fc args0 report0 srcs0 st
            | .ok c2 tcs2 =>
              let thought2 := if c2 = "" then content else c2
              match tcs2 with
              | [] => forceFinishTail tcs iteration thought2 fc args0 report0 srcs0 st
              | fc2 :: _ =>
                match strictParse fc2.arguments with
                | none => forceFinishTail tcs iteration thought2 fc2 args0 report0 srcs0 st
                | some args2 =>
                  forceFinishTail tcs iteration thought2 fc2 args2
                    (args2.report.getD report0) (args2.sources.getD srcs0) st
          else forceFinishTail tcs iteration content fc args0 report0 srcs0 st
        else forceFinishTail tcs iteration content fc args0 report0 srcs0 st

/-- Assemble the `ResearchResult` fields from the final loop state
(`status = completed if done else failed if error else incomplete`). -/
def mkResult (st : LoopState) (auto : Bool) : SessionResult :=
  { status := if st.done then "completed" else if st.error.isSome then "failed" else "incomplete"
    total_iterations := st.iteration
    report := st.final_report
    sources := st.sources
    steps := st.steps
    error := st.error
    requests := st.requests
    forced_calls := st.forced_calls
    auto_finish_succeeded := auto
    gate := st.gate
    sparse_hints := st.sparse_hints }

/-- The post-loop tail of `research`: when the loop ended without a finish,
attempt the forced auto-finish only if at least one step exists; then compute
the final status. -/
def sessionPostLoop (jp : String → Option GuardDecision)
    (strictParse : String → Option Payload) (cfg : SessionConfig)
    (fenv : ForceEnv) (st : LoopState) : SessionResult :=
  if st.done = false then
    if st.steps.isEmpty then mkResult st false
    else
      let afi := st.iteration + 1
      let fr := forceFinish jp strictParse cfg fenv afi st
      let st1 := fr.2.2.2.2
      let st2 := { st1 with done := fr.1, final_report := fr.2.1, sources := fr.2.2.1 }
      let st3 :=
        match fr.2.2.2.1 with
        | some s => if fr.1 then { st2 with steps := st2.steps ++ [s], iteration := afi } else st2
        | none => st2
      mkResult st3 fr.1
  else mkResult st false

/-- The state `research` sets up before entering the loop: the seeded
conversation, the query-derived tool policy and recency intent, and the
`__init__`-fresh counters (the API route constructs a fresh agent per
session, so each session starts from these zeroed counters). -/
def initialState (cfg : SessionConfig) : LoopState :=
  let policy := deriveToolPolicy cfg.query
  let recency := detectRecencyIntent cfg.query
  let history0 : List Message :=
    [ { role := .system, content := SYSTEM_PROMPT_STUB },
      { role := .user, content := kickoffUserMessage cfg.query } ]
  let pm := buildToolPolicyMessage policy recency
  let history1 :=
    if pm = "" then history0 else history0 ++ [{ role := .system, content := pm }]
  { history := history1
    gate := { policy := policy }
    recency_intent := recency }

/-- `ResearcherAgent.research`: initialize the conversation and per-session
policy state, run the bounded loop, then the forced-finish tail. -/
def runSession (jp : String → Option GuardDecision)
    (strictParse litParse : String → Option Payload) (cfg : SessionConfig)
    (iters : List IterEnv) (fenv : ForceEnv) : SessionResult :=
  sessionPostLoop jp strictParse cfg fenv
    (runLoop jp strictParse litParse cfg iters (initialState cfg))

/-- Concrete strict-parse oracle used by session-level witnesses: only the
argument text FIN parses (to a small finish payload). -/
def spWitness : String → Option Payload :=
  fun s => if s = "FIN" then some { report := some "R", sources := some ["src1"] } else none

/-- Concrete session configuration used by session-level witnesses: a plain
query, a one-iteration budget and the Finish Guard disabled. -/
def cfgWitness : SessionConfig :=
  { query := "weather in bergen", max_iterations := 1, finish_guard_enabled := false }

/-- Concrete loop-iteration environment used by session-level witnesses: one
web search whose arguments are unparsable and whose execution succeeds. -/
def iterWitness : IterEnv :=
  { llm := .ok "t" [⟨"c1", "web_search", "not json"⟩], calls := [{ exec := .ok "obs" 3 }] }

/-- Concrete forced-finish environment used by session-level witnesses: the
forced completion immediately returns a parsable finish call. -/
def fenvWitness : ForceEnv :=
  { llm := .ok "done" [⟨"f1", "finish", "FIN"⟩] }

theorem pruneRev_head_ok (l : List Message) :
    ∀ m ∈ (pruneRev l).head?, isIncompleteAssistant m = false := by
  induction l using pruneRev.induct with
  | case1 => intro m hm; simp [pruneRev] at hm
  | case2 m h =>
    intro x hx
    simp only [pruneRev, if_pos h] at hx
    simp at hx
  | case3 m h =>
    intro x hx
    simp only [pruneRev, if_neg h] at hx
    simp only [Option.mem_def, List.head?_cons, Option.some.injEq] at hx
    subst hx
    simpa using h
  | case4 m m2 rest h ih =>
    intro x hx
    simp only [pruneRev, if_pos h] at hx
    exact ih x hx
  | case5 m m2 rest h1 h2 ih =>
    intro x hx
    simp only [pruneRev, if_neg h1, if_pos h2] at hx
    exact ih x hx
  | case6 m m2 rest h1 h2 =>
    intro x hx
    simp only [pruneRev, if_neg h1, if_neg h2] at hx
    simp only [Option.mem_def, List.head?_cons, Option.some.injEq] at hx
    subst hx
    simpa using h1

/-- After pruning, the history never ends with an assistant message that
still carries tool calls. -/
theorem prune_no_unresolved (history : List Message) :
    endsWithUnresolvedToolCalls (pruneIncompleteToolCalls history) = false := by
  unfold endsWithUnresolvedToolCalls pruneIncompleteToolCalls
  rw [List.getLast?_reverse]
  cases hh : (pruneRev history.reverse).head? with
  | none => rfl
  | some m => exact pruneRev_head_ok history.reverse m hh

/-- Appending any message whose role is not assistant (a user prompt, a
system hint, a tool observation) keeps the no-unresolved-tool-calls
property. -/
theorem endsWith_append_nonassistant (history : List Message) (m : Message)
    (hm : m.role ≠ .assistant) :
    endsWithUnresolvedToolCalls (history ++ [m]) = false := by
  unfold endsWithUnresolvedToolCalls
  rw [List.getLast?_append_of_ne_nil _ (by simp)]
  simp [isIncompleteAssistant]
  intro hr
  exact absurd hr hm

theorem pruneRev_cons_incomplete (m : Message) (l : List Message)
    (h : isIncompleteAssistant m = true) :
    pruneRev (m :: l) = pruneRev l := by
  cases l with
  | nil => simp [pruneRev, h]
  | cons m2 rest => simp [pruneRev, h]

theorem maybeMark_eq (st : LoopState) (n : String) (c : Nat) :
    maybeMarkSufficientEvidence st n c = st ∨
    maybeMarkSufficientEvidence st n c = { st with early_evidence_sufficient := true } := by
  unfold maybeMarkSufficientEvidence
  dsimp only
  split_ifs <;> first | exact Or.inl rfl | exact Or.inr rfl

theorem recordToolUsage_eq (st : LoopState) (n : String) (s : Bool) :
    recordToolUsage st n s = st ∨
    recordToolUsage st n s = { st with usage_web := st.usage_web + 1, last_guidance_missing := none } ∨
    recordToolUsage st n s = { st with usage_arxiv := st.usage_arxiv + 1, last_guidance_missing := none } ∨
    recordToolUsage st n s = { st with usage_github := st.usage_github + 1, last_guidance_missing := none } := by
  unfold recordToolUsage
  split_ifs <;>
    first
      | exact Or.inl rfl
      | exact Or.inr (Or.inl rfl)
      | exact Or.inr (Or.inr (Or.inl rfl))
      | exact Or.inr (Or.inr (Or.inr rfl))

theorem injectDomainGuidance_eq (st : LoopState) :
    injectDomainGuidance st = { st with last_guidance_missing := none } ∨
    injectDomainGuidance st = st ∨
    injectDomainGuidance st =
      { st with
        history := st.history ++ [{ role := .system, content := domainGuidance (missingDomainTools st) }]
        last_guidance_missing := some (missingDomainTools st) } := by
  unfold injectDomainGuidance
  dsimp only
  split_ifs <;>
    first
      | exact Or.inl rfl
      | exact Or.inr (Or.inl rfl)
      | exact Or.inr (Or.inr rfl)

theorem maybeMark_components (st : LoopState) (n : String) (c : Nat) :
    (maybeMarkSufficientEvidence st n c).iteration = st.iteration ∧
    (maybeMarkSufficientEvidence st n c).forced_calls = st.forced_calls ∧
    (maybeMarkSufficientEvidence st n c).error = st.error ∧
    (maybeMarkSufficientEvidence st n c).recency_intent = st.recency_intent ∧
    (maybeMarkSufficientEvidence st n c).gate = st.gate ∧
    (maybeMarkSufficientEvidence st n c).requests = st.requests ∧
    (maybeMarkSufficientEvidence st n c).steps = st.steps ∧
    (maybeMarkSufficientEvidence st n c).done = st.done ∧
    (maybeMarkSufficientEvidence st n c).history = st.history ∧
    (maybeMarkSufficientEvidence st n c).last_sparse_query = st.last_sparse_query ∧
    (maybeMarkSufficientEvidence st n c).sparse_hints = st.sparse_hints := by
  rcases maybeMark_eq st n c with h | h <;> rw [h] <;> simp

theorem recordToolUsage_components (st : LoopState) (n : String) (s : Bool) :
    (recordToolUsage st n s).iteration = st.iteration ∧
    (recordToolUsage st n s).forced_calls = st.forced_calls ∧
    (recordToolUsage st n s).error = st.error ∧
    (recordToolUsage st n s).recency_intent = st.recency_intent ∧
    (recordToolUsage st n s).gate = st.gate ∧
    (recordToolUsage st n s).requests = st.requests ∧
    (recordToolUsage st n s).steps = st.steps ∧
    (recordToolUsage st n s).done = st.done ∧
    (recordToolUsage st n s).history = st.history ∧
    (recordToolUsage st n s).last_sparse_query = st.last_sparse_query ∧
    (recordToolUsage st n s).sparse_hints = st.sparse_hints := by
  rcases recordToolUsage_eq st n s with h | h | h | h <;> rw [h] <;> simp

theorem injectDomainGuidance_components (st : LoopState) :
    (injectDomainGuidance st).iteration = st.iteration ∧
    (injectDomainGuidance st).forced_calls = st.forced_calls ∧
    (injectDomainGuidance st).error = st.error ∧
    (injectDomainGuidance st).recency_intent = st.recency_intent ∧
    (injectDomainGuidance st).gate = st.gate ∧
    (injectDomainGuidance st).requests = st.requests ∧
    (injectDomainGuidance st).steps = st.steps ∧
    (injectDomainGuidance st).done = st.done := by
  rcases injectDomainGuidance_eq st with h | h | h <;> rw [h] <;> simp

theorem buildGuardMessages_ok (q : String) (a : Payload) :
    endsWithUnresolvedToolCalls (buildGuardMessages q a) = false := by
  simp [buildGuardMessages, endsWithUnresolvedToolCalls, isIncompleteAssistant]

theorem isToolAllowed_denial_bound (s : GateState) (n t : String) :
    (isToolAllowed s n t).2.2.denials_github ≤ max 1 s.denials_github ∧
    (isToolAllowed s n t).2.2.denials_arxiv ≤ max 1 s.denials_arxiv := by
  unfold isToolAllowed
  dsimp only
  split_ifs <;> simp_all

theorem execTail_components (action_name thought observation : String)
    (action_input : Payload) (tc : ToolCall) (idx : Nat) (tool_success : Bool)
    (result_count : Nat) (st : LoopState) :
    (execTail action_name thought observation action_input tc idx tool_success result_count st).iteration = st.iteration ∧
    (execTail action_name thought observation action_input tc idx tool_success result_count st).forced_calls = st.forced_calls ∧
    (execTail action_name thought observation action_input tc idx tool_success result_count st).error = st.error ∧
    (execTail action_name thought observation action_input tc idx tool_success result_count st).recency_intent = st.recency_intent ∧
    (execTail action_name thought observation action_input tc idx tool_success result_count st).gate = st.gate ∧
    (execTail action_name thought observation action_input tc idx tool_success result_count st).requests = st.requests ∧
    (execTail action_name thought observation action_input tc idx tool_success result_count st).done = st.done := by
  obtain ⟨m1, m2, m3, m4, m5, m6, m7, m8, m9, m10, m11⟩ :=
    maybeMark_components st action_name result_count
  obtain ⟨r1, r2, r3, r4, r5, r6, r7, r8, r9, r10, r11⟩ :=
    recordToolUsage_components (maybeMarkSufficientEvidence st action_name result_count)
      action_name tool_success
  unfold execTail
  dsimp only
  split_ifs <;> (try split) <;> simp_all

/-- Components preserved by `appendToolMessage` (it only extends the
history). -/
theorem appendToolMessage_components (st : LoopState) (tcid content : String) :
    (appendToolMessage st tcid content).iteration = st.iteration ∧
    (appendToolMessage st tcid content).forced_calls = st.forced_calls ∧
    (appendToolMessage st tcid content).error = st.error ∧
    (appendToolMessage st tcid content).recency_intent = st.recency_intent ∧
    (appendToolMessage st tcid content).gate = st.gate ∧
    (appendToolMessage st tcid content).requests = st.requests ∧
    (appendToolMessage st tcid content).done = st.done ∧
    (appendToolMessage st tcid content).steps = st.steps :=
  ⟨rfl, rfl, rfl, rfl, rfl, rfl, rfl, rfl⟩

/-- Components preserved by `rejectTail` (it only extends the history). -/
theorem rejectTail_components (tcid rejection : String) (hint : Option String)
    (st : LoopState) :
    (rejectTail tcid rejection hint st).iteration = st.iteration ∧
    (rejectTail tcid rejection hint st).forced_calls = st.forced_calls ∧
    (rejectTail tcid rejection hint st).error = st.error ∧
    (rejectTail tcid rejection hint st).recency_intent = st.recency_intent ∧
    (rejectTail tcid rejection hint st).gate = st.gate ∧
    (rejectTail tcid rejection hint st).requests = st.requests ∧
    (rejectTail tcid rejection hint st).done = st.done ∧
    (rejectTail tcid rejection hint st).steps = st.steps := by
  unfold rejectTail
  dsimp only
  cases hint with
  | none => exact ⟨rfl, rfl, rfl, rfl, rfl, rfl, rfl, rfl⟩
  | some h =>
    dsimp only
    split_ifs <;> exact ⟨rfl, rfl, rfl, rfl, rfl, rfl, rfl, rfl⟩

/-- Invariants of the per-reply call-processing loop: it never changes the
iteration counter, the forced-call count, the stored error, or the recency
intent; denial counters stay at most 1 above their floor; and every
completion request it records (the Finish Guard conversations) satisfies the
pruning invariant. -/
theorem processCalls_invariants (jp : String → Option GuardDecision)
    (sp lp : String → Option Payload) (query thought : String) :
    ∀ (calls : List ToolCall) (idx : Nat) (envs : List CallEnv) (st : LoopState),
      (processCalls jp sp lp query thought idx calls envs st).1.iteration = st.iteration ∧
      (processCalls jp sp lp query thought idx calls envs st).1.forced_calls = st.forced_calls ∧
      (processCalls jp sp lp query thought idx calls envs st).1.error = st.error ∧
      (processCalls jp sp lp query thought idx calls envs st).1.recency_intent = st.recency_intent ∧
      (processCalls jp sp lp query thought idx calls envs st).1.gate.denials_github ≤ max 1 st.gate.denials_github ∧
      (processCalls jp sp lp query thought idx calls envs st).1.gate.denials_arxiv ≤ max 1 st.gate.denials_arxiv ∧
      ∃ new, (processCalls jp sp lp query thought idx calls envs st).1.requests = st.requests ++ new ∧
        ∀ c ∈ new, endsWithUnresolvedToolCalls c = false := by
  intro calls
  induction calls with
  | nil =>
    intro idx envs st
    have h : processCalls jp sp lp query thought idx [] envs st = (st, none) := rfl
    rw [h]
    exact ⟨rfl, rfl, rfl, rfl, by simp, by simp, [], by simp, by simp⟩
  | cons tc restCalls ih =>
    intro idx envs st
    have hgd := isToolAllowed_denial_bound st.gate tc.name thought
    by_cases hgate : (isToolAllowed st.gate tc.name thought).1 = false
    · -- blocked call: a synthetic observation is fed back and processing continues
      rw [show processCalls jp sp lp query thought idx (tc :: restCalls) envs st
          = processCalls jp sp lp query thought (idx + 1) restCalls envs.tail
              (appendToolMessage { st with gate := (isToolAllowed st.gate tc.name thought).2.2 }
                tc.id (isToolAllowed st.gate tc.name thought).2.1) from by
        simp only [processCalls, if_pos hgate]]
      obtain ⟨h1, h2, h3, h4, h5, h6, new, hr, hn⟩ := ih (idx + 1) envs.tail _
      refine ⟨by rw [h1]; try rfl, by rw [h2]; try rfl, by rw [h3]; try rfl, by rw [h4]; try rfl, ?_, ?_, new, by rw [hr]; try rfl, hn⟩
      · have h5b : (processCalls jp sp lp query thought (idx + 1) restCalls envs.tail
            (appendToolMessage { st with gate := (isToolAllowed st.gate tc.name thought).2.2 }
              tc.id (isToolAllowed st.gate tc.name thought).2.1)).1.gate.denials_github
            ≤ max 1 (isToolAllowed st.gate tc.name thought).2.2.denials_github := h5
        have hb := hgd.1
        omega
      · have h6b : (processCalls jp sp lp query thought (idx + 1) restCalls envs.tail
            (appendToolMessage { st with gate := (isToolAllowed st.gate tc.name thought).2.2 }
              tc.id (isToolAllowed st.gate tc.name thought).2.1)).1.gate.denials_arxiv
            ≤ max 1 (isToolAllowed st.gate tc.name thought).2.2.denials_arxiv := h6
        have hb := hgd.2
        omega
    · by_cases hfin : tc.name = "finish"
      · by_cases hg : (runFinishGuard jp (envs.headD DEFAULT_CALL_ENV).guard).1 = false
        · -- finish rejected by the guard: feedback goes back, looping continues
          rw [show processCalls jp sp lp query thought idx (tc :: restCalls) envs st
              = processCalls jp sp lp query thought (idx + 1) restCalls envs.tail
                  (rejectTail tc.id
                    (if (runFinishGuard jp (envs.headD DEFAULT_CALL_ENV).guard).2.1 = ""
                      then FINISH_REJECTION_DEFAULT
                      else (runFinishGuard jp (envs.headD DEFAULT_CALL_ENV).guard).2.1)
                    (runFinishGuard jp (envs.headD DEFAULT_CALL_ENV).guard).2.2
                    { st with gate := (isToolAllowed st.gate tc.name thought).2.2, requests := st.requests ++ [buildGuardMessages query (parseToolArguments sp lp tc.name tc.arguments)] }) from by
            simp only [processCalls]
            rw [if_neg hgate, if_pos hfin, if_pos hg]]
          obtain ⟨h1, h2, h3, h4, h5, h6, new, hr, hn⟩ := ih (idx + 1) envs.tail _
          obtain ⟨r1, r2, r3, r4, r5, r6, r7, r8⟩ := rejectTail_components tc.id
            (if (runFinishGuard jp (envs.headD DEFAULT_CALL_ENV).guard).2.1 = ""
              then FINISH_REJECTION_DEFAULT
              else (runFinishGuard jp (envs.headD DEFAULT_CALL_ENV).guard).2.1)
            (runFinishGuard jp (envs.headD DEFAULT_CALL_ENV).guard).2.2
            { st with gate := (isToolAllowed st.gate tc.name thought).2.2, requests := st.requests ++ [buildGuardMessages query (parseToolArguments sp lp tc.name tc.arguments)] }
          refine ⟨by rw [h1, r1]; try rfl, by rw [h2, r2]; try rfl, by rw [h3, r3]; try rfl, by rw [h4, r4]; try rfl, ?_, ?_, ?_⟩
          · rw [r5] at h5
            have h5b : (processCalls jp sp lp query thought (idx + 1) restCalls envs.tail
                (rejectTail tc.id
                  (if (runFinishGuard jp (envs.headD DEFAULT_CALL_ENV).guard).2.1 = ""
                    then FINISH_REJECTION_DEFAULT
                    else (runFinishGuard jp (envs.headD DEFAULT_CALL_ENV).guard).2.1)
                  (runFinishGuard jp (envs.headD DEFAULT_CALL_ENV).guard).2.2
                  { st with gate := (isToolAllowed st.gate tc.name thought).2.2, requests := st.requests ++ [buildGuardMessages query (parseToolArguments sp lp tc.name tc.arguments)] })).1.gate.denials_github
                ≤ max 1 (isToolAllowed st.gate tc.name thought).2.2.denials_github := h5
            have hb := hgd.1
            omega
          · rw [r5] at h6
            have h6b : (processCalls jp sp lp query thought (idx + 1) restCalls envs.tail
                (rejectTail tc.id
                  (if (runFinishGuard jp (envs.headD DEFAULT_CALL_ENV).guard).2.1 = ""
                    then FINISH_REJECTION_DEFAULT
                    else (runFinishGuard jp (envs.headD DEFAULT_CALL_ENV).guard).2.1)
                  (runFinishGuard jp (envs.headD DEFAULT_CALL_ENV).guard).2.2
                  { st with gate := (isToolAllowed st.gate tc.name thought).2.2, requests := st.requests ++ [buildGuardMessages query (parseToolArguments sp lp tc.name tc.arguments)] })).1.gate.denials_arxiv
                ≤ max 1 (isToolAllowed st.gate tc.name thought).2.2.denials_arxiv := h6
            have hb := hgd.2
            omega
          · refine ⟨buildGuardMessages query (parseToolArguments sp lp tc.name tc.arguments) :: new, ?_, ?_⟩
            · rw [hr, r6]
              simp
            · intro c hc
              rcases List.mem_cons.mp hc with h | h
              · rw [h]; exact buildGuardMessages_ok _ _
              · exact hn c h
        · -- finish approved: processing stops with done set
          rw [show processCalls jp sp lp query thought idx (tc :: restCalls) envs st
              = ({ st with gate := (isToolAllowed st.gate tc.name thought).2.2, requests := st.requests ++ [buildGuardMessages query (parseToolArguments sp lp tc.name tc.arguments)], final_report := (parseToolArguments sp lp tc.name tc.arguments).report.getD "", sources := (parseToolArguments sp lp tc.name tc.arguments).sources.getD [], done := true, steps := st.steps ++ [{ iteration := st.iteration, thought := thought, action := "finish", action_input := parseToolArguments sp lp tc.name tc.arguments, observation := "Final report generated" }] }, none) from by
            simp only [processCalls]
            rw [if_neg hgate, if_pos hfin, if_neg hg]]
          refine ⟨rfl, rfl, rfl, rfl, ?_, ?_,
            [buildGuardMessages query (parseToolArguments sp lp tc.name tc.arguments)], rfl, ?_⟩
          · have hb := hgd.1
            show (isToolAllowed st.gate tc.name thought).2.2.denials_github ≤ _
            omega
          · have hb := hgd.2
            show (isToolAllowed st.gate tc.name thought).2.2.denials_arxiv ≤ _
            omega
          · intro c hc
            rw [List.mem_singleton.mp hc]
            exact buildGuardMessages_ok _ _
      · -- an ordinary tool call: split on the execution outcome
        rcases hexec : (envs.headD DEFAULT_CALL_ENV).exec with ⟨obs, cnt⟩ | ⟨⟩ | ⟨msg⟩
        · -- successful execution
          rw [show processCalls jp sp lp query thought idx (tc :: restCalls) envs st
              = processCalls jp sp lp query thought (idx + 1) restCalls envs.tail
                  (execTail tc.name thought obs (parseToolArguments sp lp tc.name tc.arguments)
                    tc idx true cnt { st with gate := (isToolAllowed st.gate tc.name thought).2.2 }) from by
            simp only [processCalls, if_neg hgate, if_neg hfin, hexec]]
          obtain ⟨h1, h2, h3, h4, h5, h6, new, hr, hn⟩ := ih (idx + 1) envs.tail _
          obtain ⟨e1, e2, e3, e4, e5, e6, e7⟩ := execTail_components tc.name thought obs
            (parseToolArguments sp lp tc.name tc.arguments) tc idx true cnt
            { st with gate := (isToolAllowed st.gate tc.name thought).2.2 }
          refine ⟨by rw [h1, e1]; try rfl, by rw [h2, e2]; try rfl, by rw [h3, e3]; try rfl, by rw [h4, e4]; try rfl, ?_, ?_,
            new, by rw [hr, e6]; try rfl, hn⟩
          · rw [e5] at h5
            have h5b : (processCalls jp sp lp query thought (idx + 1) restCalls envs.tail
                (execTail tc.name thought obs (parseToolArguments sp lp tc.name tc.arguments)
                  tc idx true cnt { st with gate := (isToolAllowed st.gate tc.name thought).2.2 })).1.gate.denials_github
                ≤ max 1 (isToolAllowed st.gate tc.name thought).2.2.denials_github := h5
            have hb := hgd.1
            omega
          · rw [e5] at h6
            have h6b : (processCalls jp sp lp query thought (idx + 1) restCalls envs.tail
                (execTail tc.name thought obs (parseToolArguments sp lp tc.name tc.arguments)
                  tc idx true cnt { st with gate := (isToolAllowed st.gate tc.name thought).2.2 })).1.gate.denials_arxiv
                ≤ max 1 (isToolAllowed st.gate tc.name thought).2.2.denials_arxiv := h6
            have hb := hgd.2
            omega
        · -- timeout: a structured error observation, processing continues
          rw [show processCalls jp sp lp query thought idx (tc :: restCalls) envs st
              = processCalls jp sp lp query thought (idx + 1) restCalls envs.tail
                  (execTail tc.name thought (toolTimeoutMessage tc.name)
                    (parseToolArguments sp lp tc.name tc.arguments)
                    tc idx false 0 { st with gate := (isToolAllowed st.gate tc.name thought).2.2 }) from by
            simp only [processCalls, if_neg hgate, if_neg hfin, hexec]]
          obtain ⟨h1, h2, h3, h4, h5, h6, new, hr, hn⟩ := ih (idx + 1) envs.tail _
          obtain ⟨e1, e2, e3, e4, e5, e6, e7⟩ := execTail_components tc.name thought
            (toolTimeoutMessage tc.name) (parseToolArguments sp lp tc.name tc.arguments)
            tc idx false 0 { st with gate := (isToolAllowed st.gate tc.name thought).2.2 }
          refine ⟨by rw [h1, e1]; try rfl, by rw [h2, e2]; try rfl, by rw [h3, e3]; try rfl, by rw [h4, e4]; try rfl, ?_, ?_,
            new, by rw [hr, e6]; try rfl, hn⟩
          · rw [e5] at h5
            have h5b : (processCalls jp sp lp query thought (idx + 1) restCalls envs.tail
                (execTail tc.name thought (toolTimeoutMessage tc.name)
                  (parseToolArguments sp lp tc.name tc.arguments)
                  tc idx false 0 { st with gate := (isToolAllowed st.gate tc.name thought).2.2 })).1.gate.denials_github
                ≤ max 1 (isToolAllowed st.gate tc.name thought).2.2.denials_github := h5
            have hb := hgd.1
            omega
          · rw [e5] at h6
            have h6b : (processCalls jp sp lp query thought (idx + 1) restCalls envs.tail
                (execTail tc.name thought (toolTimeoutMessage tc.name)
                  (parseToolArguments sp lp tc.name tc.arguments)
                  tc idx false 0 { st with gate := (isToolAllowed st.gate tc.name thought).2.2 })).1.gate.denials_arxiv
                ≤ max 1 (isToolAllowed st.gate tc.name thought).2.2.denials_arxiv := h6
            have hb := hgd.2
            omega
        · -- the tool raised: the exception propagates with the state as updated
          rw [show processCalls jp sp lp query thought idx (tc :: restCalls) envs st
              = ({ st with gate := (isToolAllowed st.gate tc.name thought).2.2 }, some msg) from by
            simp only [processCalls, if_neg hgate, if_neg hfin, hexec]]
          refine ⟨rfl, rfl, rfl, rfl, ?_, ?_, [], by simp, by simp⟩
          · have hb := hgd.1
            show (isToolAllowed st.gate tc.name thought).2.2.denials_github ≤ _
            omega
          · have hb := hgd.2
            show (isToolAllowed st.gate tc.name thought).2.2.denials_arxiv ≤ _
            omega

theorem injectDomainGuidance_history_ok (st : LoopState)
    (h : endsWithUnresolvedToolCalls st.history = false) :
    endsWithUnresolvedToolCalls (injectDomainGuidance st).history = false := by
  rcases injectDomainGuidance_eq st with he | he | he <;> rw [he]
  · exact h
  · exact h
  · exact endsWith_append_nonassistant st.history _ (fun hx => Role.noConfusion hx)

/-- The request-preparation phase only touches the history, the guidance memo
and the request log, and the single conversation it records never ends with
an unresolved assistant tool-call turn. -/
theorem buildRequestState_components (st : LoopState) :
    (buildRequestState st).iteration = st.iteration ∧
    (buildRequestState st).forced_calls = st.forced_calls ∧
    (buildRequestState st).error = st.error ∧
    (buildRequestState st).recency_intent = st.recency_intent ∧
    (buildRequestState st).gate = st.gate ∧
    (buildRequestState st).done = st.done ∧
    (buildRequestState st).steps = st.steps ∧
    ∃ req, (buildRequestState st).requests = st.requests ++ [req] ∧
      endsWithUnresolvedToolCalls req = false := by
  unfold buildRequestState
  dsimp only
  by_cases hc : (pruneIncompleteToolCalls st.history).length > 1 ∧
      (pruneIncompleteToolCalls st.history).getLast?.map Message.role ≠ some Role.user
  · rw [if_pos hc]
    obtain ⟨i1, i2, i3, i4, i5, i6, i7, i8⟩ := injectDomainGuidance_components
      { st with history := pruneIncompleteToolCalls st.history ++
        [{ role := .user, content := CONTINUE_PROMPT }] }
    refine ⟨by exact i1, by exact i2, by exact i3, by exact i4, by exact i5, by exact i8,
      by exact i7,
      (injectDomainGuidance { st with history := pruneIncompleteToolCalls st.history ++
        [{ role := .user, content := CONTINUE_PROMPT }] }).history, by rw [i6], ?_⟩
    exact injectDomainGuidance_history_ok _
      (endsWith_append_nonassistant (pruneIncompleteToolCalls st.history) _ (by decide))
  · rw [if_neg hc]
    obtain ⟨i1, i2, i3, i4, i5, i6, i7, i8⟩ := injectDomainGuidance_components
      { st with history := pruneIncompleteToolCalls st.history }
    refine ⟨by exact i1, by exact i2, by exact i3, by exact i4, by exact i5, by exact i8,
      by exact i7,
      (injectDomainGuidance { st with history := pruneIncompleteToolCalls st.history }).history,
      by rw [i6], ?_⟩
    exact injectDomainGuidance_history_ok _ (prune_no_unresolved st.history)

/-- Reply handling preserves the iteration counter, the forced-call count and
the recency intent, keeps the denial counters within the gating bound, and
records only pruning-safe requests (the Finish Guard conversations). -/
theorem handleReply_invariants (jp : String → Option GuardDecision)
    (sp lp : String → Option Payload) (query : String) (st : LoopState)
    (content : String) (tcs : List ToolCall) (cenvs : List CallEnv) :
    (handleReply jp sp lp query st content tcs cenvs).1.iteration = st.iteration ∧
    (handleReply jp sp lp query st content tcs cenvs).1.forced_calls = st.forced_calls ∧
    (handleReply jp sp lp query st content tcs cenvs).1.recency_intent = st.recency_intent ∧
    (handleReply jp sp lp query st content tcs cenvs).1.gate.denials_github ≤ max 1 st.gate.denials_github ∧
    (handleReply jp sp lp query st content tcs cenvs).1.gate.denials_arxiv ≤ max 1 st.gate.denials_arxiv ∧
    ∃ new, (handleReply jp sp lp query st content tcs cenvs).1.requests = st.requests ++ new ∧
      ∀ c ∈ new, endsWithUnresolvedToolCalls c = false := by
  unfold handleReply
  dsimp only
  by_cases hemp : tcs.isEmpty
  · rw [if_pos hemp]
    exact ⟨rfl, rfl, rfl, le_max_right 1 _, le_max_right 1 _, [], by simp, by simp⟩
  · rw [if_neg hemp]
    obtain ⟨h1, h2, h3, h4, h5, h6, new, hr, hn⟩ := processCalls_invariants jp sp lp query
      (if pyStrip content = "" ∧ tcs ≠ [] then fallbackThought tcs st.iteration else content)
      tcs 0 cenvs
      { st with history := st.history ++
        [{ role := .assistant,
           content := if pyStrip content = "" ∧ tcs ≠ [] then fallbackThought tcs st.iteration else content,
           tool_calls := tcs }] }
    rcases hpr : (processCalls jp sp lp query
        (if pyStrip content = "" ∧ tcs ≠ [] then fallbackThought tcs st.iteration else content)
        0 tcs cenvs
        { st with history := st.history ++
          [{ role := .assistant,
             content := if pyStrip content = "" ∧ tcs ≠ [] then fallbackThought tcs st.iteration else content,
             tool_calls := tcs }] }).2 with _ | msg <;>
      simp only [hpr] <;>
      exact ⟨by rw [h1], by rw [h2], by rw [h4], by exact h5, by exact h6, new, by rw [hr], hn⟩

/-- Each loop pass advances the iteration counter by exactly one and keeps
the other monotone invariants. -/
theorem runIteration_invariants (jp : String → Option GuardDecision)
    (sp lp : String → Option Payload) (cfg : SessionConfig)
    (st : LoopState) (env : IterEnv) :
    (runIteration jp sp lp cfg st env).1.iteration = st.iteration + 1 ∧
    (runIteration jp sp lp cfg st env).1.forced_calls = st.forced_calls ∧
    (runIteration jp sp lp cfg st env).1.recency_intent = st.recency_intent ∧
    (runIteration jp sp lp cfg st env).1.gate.denials_github ≤ max 1 st.gate.denials_github ∧
    (runIteration jp sp lp cfg st env).1.gate.denials_arxiv ≤ max 1 st.gate.denials_arxiv ∧
    ∃ new, (runIteration jp sp lp cfg st env).1.requests = st.requests ++ new ∧
      ∀ c ∈ new, endsWithUnresolvedToolCalls c = false := by
  unfold runIteration
  dsimp only
  by_cases ht : env.timeout_hit = true
  · rw [if_pos ht]
    exact ⟨rfl, rfl, rfl, le_max_right 1 _, le_max_right 1 _, [], by simp, by simp⟩
  · rw [if_neg ht]
    obtain ⟨b1, b2, b3, b4, b5, b6, b7, req, hbr, hbq⟩ :=
      buildRequestState_components { st with iteration := st.iteration + 1 }
    cases hfl : env.llm with
    | raise msg =>
      refine ⟨by exact b1, by exact b2, by exact b4, ?_, ?_, [req], by exact hbr, ?_⟩
      · show (buildRequestState { st with iteration := st.iteration + 1 }).gate.denials_github ≤ _
        rw [b5]
        exact le_max_right 1 _
      · show (buildRequestState { st with iteration := st.iteration + 1 }).gate.denials_arxiv ≤ _
        rw [b5]
        exact le_max_right 1 _
      · intro c hc
        rw [List.mem_singleton.mp hc]
        exact hbq
    | ok content tcs =>
      obtain ⟨p1, p2, p3, p4, p5, new2, hpr2, hpn2⟩ := handleReply_invariants jp sp lp cfg.query
        (buildRequestState { st with iteration := st.iteration + 1 }) content tcs env.calls
      refine ⟨by rw [p1, b1], by rw [p2, b2], by rw [p3, b4], ?_, ?_, req :: new2, ?_, ?_⟩
      · refine le_trans p4 ?_
        rw [b5]
      · refine le_trans p5 ?_
        rw [b5]
      · rw [hpr2, hbr]
        simp
      · intro c hc
        rcases List.mem_cons.mp hc with h | h
        · rw [h]; exact hbq
        · exact hpn2 c h

/-- The loop invariants: the iteration counter stays within the budget, the
forced-call count and recency intent are untouched, the denial counters stay
bounded, and every recorded request is pruning-safe. -/
theorem runLoop_invariants (jp : String → Option GuardDecision)
    (sp lp : String → Option Payload) (cfg : SessionConfig) :
    ∀ (envs : List IterEnv) (st : LoopState),
      (runLoop jp sp lp cfg envs st).iteration ≤ max st.iteration cfg.max_iterations ∧
      (runLoop jp sp lp cfg envs st).forced_calls = st.forced_calls ∧
      (runLoop jp sp lp cfg envs st).recency_intent = st.recency_intent ∧
      (runLoop jp sp lp cfg envs st).gate.denials_github ≤ max 1 st.gate.denials_github ∧
      (runLoop jp sp lp cfg envs st).gate.denials_arxiv ≤ max 1 st.gate.denials_arxiv ∧
      ∀ c ∈ (runLoop jp sp lp cfg envs st).requests,
        c ∈ st.requests ∨ endsWithUnresolvedToolCalls c = false := by
  intro envs
  induction envs with
  | nil =>
    intro st
    exact ⟨le_max_left _ _, rfl, rfl, le_max_right 1 _, le_max_right 1 _,
      fun c hc => Or.inl hc⟩
  | cons env rest ih =>
    intro st
    unfold runLoop
    by_cases hg : st.done = false ∧ st.iteration < cfg.max_iterations
    · rw [if_pos hg]
      obtain ⟨r1, r2, r3, r4, r5, newR, hrR, hnR⟩ := runIteration_invariants jp sp lp cfg st env
      cases hb : (runIteration jp sp lp cfg st env).2
      · simp only [hb, Bool.false_eq_true, if_false]
        obtain ⟨l1, l2, l3, l4, l5, l6⟩ := ih (runIteration jp sp lp cfg st env).1
        refine ⟨?_, by rw [l2, r2], by rw [l3, r3], ?_, ?_, ?_⟩
        · rw [r1] at l1
          have := hg.2
          omega
        · refine le_trans l4 ?_
          have := r4
          omega
        · refine le_trans l5 ?_
          have := r5
          omega
        · intro c hc
          rcases l6 c hc with h | h
          · rw [hrR] at h
            rcases List.mem_append.mp h with h2 | h2
            · exact Or.inl h2
            · exact Or.inr (hnR c h2)
          · exact Or.inr h
      · simp only [hb, if_true]
        refine ⟨?_, r2, r3, r4, r5, ?_⟩
        · rw [r1]
          have := hg.2
          omega
        · intro c hc
          rw [hrR] at hc
          rcases List.mem_append.mp hc with h2 | h2
          · exact Or.inl h2
          · exact Or.inr (hnR c h2)
    · rw [if_neg hg]
      exact ⟨le_max_left _ _, rfl, rfl, le_max_right 1 _, le_max_right 1 _,
        fun c hc => Or.inl hc⟩

/-- `forceFinishSetup` preserves everything except the history, the request
log (one pruning-safe forced request) and the forced-call counter. -/
theorem forceFinishSetup_components (st : LoopState) :
    (forceFinishSetup st).iteration = st.iteration ∧
    (forceFinishSetup st).error = st.error ∧
    (forceFinishSetup st).steps = st.steps ∧
    (forceFinishSetup st).gate = st.gate ∧
    (forceFinishSetup st).recency_intent = st.recency_intent ∧
    (forceFinishSetup st).done = st.done ∧
    (forceFinishSetup st).forced_calls = st.forced_calls + 1 ∧
    (forceFinishSetup st).requests = st.requests ++
      [pruneIncompleteToolCalls st.history ++ [{ role := .user, content := AUTO_FINISH_INSTRUCTION }]] ∧
    endsWithUnresolvedToolCalls
      (pruneIncompleteToolCalls st.history ++ [{ role := .user, content := AUTO_FINISH_INSTRUCTION }]) = false := by
  refine ⟨rfl, rfl, rfl, rfl, rfl, rfl, rfl, rfl, ?_⟩
  exact endsWith_append_nonassistant _ _ (by decide)

/-- `retrySetup` preserves everything except the history, the request log
(one pruning-safe retry request) and the forced-call counter. -/
theorem retrySetup_components (feedback : String) (hint : Option String)
    (st : LoopState) :
    (retrySetup feedback hint st).iteration = st.iteration ∧
    (retrySetup feedback hint st).error = st.error ∧
    (retrySetup feedback hint st).steps = st.steps ∧
    (retrySetup feedback hint st).gate = st.gate ∧
    (retrySetup feedback hint st).recency_intent = st.recency_intent ∧
    (retrySetup feedback hint st).done = st.done ∧
    (retrySetup feedback hint st).forced_calls = st.forced_calls + 1 ∧
    ∃ req, (retrySetup feedback hint st).requests = st.requests ++ [req] ∧
      endsWithUnresolvedToolCalls req = false := by
  unfold retrySetup
  dsimp only
  cases hint with
  | none =>
    refine ⟨rfl, rfl, rfl, rfl, rfl, rfl, rfl,
      st.history ++ [{ role := Role.system, content := "Finish guard feedback: " ++ feedback ++ " Revise the report using ONLY existing observations; do not call any tools. Then call finish again." }], rfl, ?_⟩
    exact endsWith_append_nonassistant _ _ (fun hx => Role.noConfusion hx)
  | some h =>
    dsimp only
    by_cases hh : h = ""
    · rw [if_pos hh]
      refine ⟨rfl, rfl, rfl, rfl, rfl, rfl, rfl,
        st.history ++ [{ role := Role.system, content := "Finish guard feedback: " ++ feedback ++ " Revise the report using ONLY existing observations; do not call any tools. Then call finish again." }], rfl, ?_⟩
      exact endsWith_append_nonassistant _ _ (fun hx => Role.noConfusion hx)
    · rw [if_neg hh]
      refine ⟨rfl, rfl, rfl, rfl, rfl, rfl, rfl,
        (st.history ++ [{ role := Role.system, content := "Finish guard feedback: " ++ feedback ++ " Revise the report using ONLY existing observations; do not call any tools. Then call finish again." }]) ++ [{ role := Role.system, content := "Next step: " ++ h }], rfl, ?_⟩
      exact endsWith_append_nonassistant _ _ (fun hx => Role.noConfusion hx)

/-- The shared auto-finish tail only extends the history; it reports success
with the assembled step. -/
theorem forceFinishTail_components (tcs : List ToolCall) (it : Nat)
    (thought : String) (fc : ToolCall) (args : Payload) (report : String)
    (srcs : List String) (st : LoopState) :
    (forceFinishTail tcs it thought fc args report srcs st).2.2.2.2.iteration = st.iteration ∧
    (forceFinishTail tcs it thought fc args report srcs st).2.2.2.2.error = st.error ∧
    (forceFinishTail tcs it thought fc args report srcs st).2.2.2.2.steps = st.steps ∧
    (forceFinishTail tcs it thought fc args report srcs st).2.2.2.2.gate = st.gate ∧
    (forceFinishTail tcs it thought fc args report srcs st).2.2.2.2.recency_intent = st.recency_intent ∧
    (forceFinishTail tcs it thought fc args report srcs st).2.2.2.2.done = st.done ∧
    (forceFinishTail tcs it thought fc args report srcs st).2.2.2.2.forced_calls = st.forced_calls ∧
    (forceFinishTail tcs it thought fc args report srcs st).2.2.2.2.requests = st.requests ∧
    (forceFinishTail tcs it thought fc args report srcs st).1 = true :=
  ⟨rfl, rfl, rfl, rfl, rfl, rfl, rfl, rfl, rfl⟩

theorem registerFailure_self (primary : ProviderId) (now : Nat)
    (st : ManagerState) (p : ProviderId) :
    (registerFailure primary now st p).failure_counts p = st.failure_counts p + 1 ∧
    (registerFailure primary now st p).disabled_until p =
      (if st.failure_counts p + 1 ≥ (if p = primary then 2 else 3)
        then some (now + 300) else st.disabled_until p) := by
  unfold registerFailure
  by_cases h : st.failure_counts p + 1 ≥ (if p = primary then 2 else 3) <;>
    simp [h]

theorem registerFailure_other (primary : ProviderId) (now : Nat)
    (st : ManagerState) (q p : ProviderId) (h : p ≠ q) :
    (registerFailure primary now st q).failure_counts p = st.failure_counts p ∧
    (registerFailure primary now st q).disabled_until p = st.disabled_until p := by
  unfold registerFailure
  by_cases hq : st.failure_counts q + 1 ≥ (if q = primary then 2 else 3) <;>
    simp [hq, h]

theorem resetFailure_other (st : ManagerState) (q p : ProviderId) (h : p ≠ q) :
    (resetFailure st q).failure_counts p = st.failure_counts p ∧
    (resetFailure st q).disabled_until p = st.disabled_until p := by
  simp [resetFailure, h]

theorem expireDisablement_other (now : Nat) (st : ManagerState)
    (q p : ProviderId) (h : p ≠ q) :
    (expireDisablement now st q).disabled_until p = st.disabled_until p ∧
    (expireDisablement now st q).failure_counts p = st.failure_counts p := by
  unfold expireDisablement
  cases hq : st.disabled_until q with
  | none => simp
  | some t =>
    by_cases ht : now ≥ t <;> simp [ht, h]

theorem expireDisablement_none (now : Nat) (st : ManagerState) (p : ProviderId)
    (h : st.disabled_until p = none) : expireDisablement now st p = st := by
  simp [expireDisablement, h]

/-- A provider whose cool-down has not yet elapsed is skipped by every later
attempt of the same `complete` call: it is never added to `attempted`. -/
theorem completeAux_skips_disabled (primary : ProviderId)
    (configured : ProviderId → Bool) (behavior : ProviderId → AttemptResult)
    (flags : CompleteFlags) (now : Nat) (p : ProviderId) (t : Nat) :
    ∀ (seq : List ProviderId) (st : ManagerState) (attempted : List ProviderId),
      st.disabled_until p = some t → now < t → p ∉ attempted →
      p ∉ (completeAux primary configured behavior flags now seq st attempted).attempted := by
  intro seq
  induction seq with
  | nil => intro st attempted hd ht ha; simpa [completeAux] using ha
  | cons q rest ih =>
    intro st attempted hd ht ha
    by_cases hpq : p = q
    · subst hpq
      have hst1 : (expireDisablement now st p).disabled_until p = some t := by
        unfold expireDisablement
        rw [hd]
        have : ¬ now ≥ t := Nat.not_le.mpr ht
        simp [this, hd]
      have hdis : isDisabledB now (expireDisablement now st p) p = true := by
        unfold isDisabledB
        rw [hst1]
        simpa using ht
      by_cases hc : configured p = true
      · simp only [completeAux, hc, if_true, hdis, if_true]
        exact ih (expireDisablement now st p) attempted hst1 ht ha
      · simp only [completeAux, hc, if_false]
        exact ih st attempted hd ht ha
    · by_cases hc : configured q = true
      · have hst1 : (expireDisablement now st q).disabled_until p = some t := by
          rw [(expireDisablement_other now st q p hpq).1, hd]
        by_cases hdis : isDisabledB now (expireDisablement now st q) q = true
        · simp only [completeAux, hc, if_true, hdis, if_true]
          exact ih (expireDisablement now st q) attempted hst1 ht ha
        · have ha2 : p ∉ attempted ++ [q] := by
            simp [ha, hpq]
          simp only [completeAux, hc, if_true, hdis, if_false]
          cases hb : behavior q with
          | ok content tcs =>
            by_cases hs : attemptSucceeds flags (.ok content tcs) = true
            · simp only [hs, if_true]
              simpa using ha2
            · simp only [hs, if_false]
              exact ih (registerFailure primary now (expireDisablement now st q) q)
                (attempted ++ [q])
                (by rw [(registerFailure_other primary now _ q p hpq).2, hst1]) ht ha2
          | raise =>
            exact ih (registerFailure primary now (expireDisablement now st q) q)
              (attempted ++ [q])
              (by rw [(registerFailure_other primary now _ q p hpq).2, hst1]) ht ha2
      · simp only [completeAux, hc, if_false]
        exact ih st attempted hd ht ha

/-- C5: with a primary provider that always raises and a configured, enabled
fallback that succeeds semantically, `complete` returns the fallback result
tagged with the fallback identity; the primary failure increments its
consecutive-failure counter, reaching the primary threshold of 2 opens a
5-minute (300 second) cool-down, the succeeding fallback is reset; and any
provider whose cool-down has not elapsed is skipped by the attempt loop. -/
theorem complete_fallback_and_circuit
    (primary f : ProviderId) (rest : List ProviderId)
    (configured : ProviderId → Bool) (behavior : ProviderId → AttemptResult)
    (flags : CompleteFlags) (now : Nat) (st : ManagerState)
    (hpf : f ≠ primary)
    (hpc : configured primary = true) (hfc : configured f = true)
    (hpd : st.disabled_until primary = none) (hfd : st.disabled_until f = none)
    (hpb : behavior primary = .raise)
    (c : String) (tcs : List ToolCall)
    (hfb : behavior f = .ok c tcs)
    (hok : attemptSucceeds flags (.ok c tcs) = true) :
    (managerComplete primary (f :: rest) configured behavior flags now st).result
      = some ⟨c, tcs, f⟩ ∧
    (managerComplete primary (f :: rest) configured behavior flags now st).attempted
      = [primary, f] ∧
    (managerComplete primary (f :: rest) configured behavior flags now st).state.failure_counts primary
      = st.failure_counts primary + 1 ∧
    (2 ≤ st.failure_counts primary + 1 →
      (managerComplete primary (f :: rest) configured behavior flags now st).state.disabled_until primary
        = some (now + 300)) ∧
    (st.failure_counts primary + 1 < 2 →
      (managerComplete primary (f :: rest) configured behavior flags now st).state.disabled_until primary
        = st.disabled_until primary) ∧
    (managerComplete primary (f :: rest) configured behavior flags now st).state.failure_counts f = 0 ∧
    (managerComplete primary (f :: rest) configured behavior flags now st).state.disabled_until f = none ∧
    (∀ (p : ProviderId) (t : Nat), st.disabled_until p = some t → now < t →
      p ∉ (managerComplete primary (f :: rest) configured behavior flags now st).attempted) := by
  have hfilter : (f :: rest).filter (fun p => p ≠ primary)
      = f :: rest.filter (fun p => p ≠ primary) := by
    simp [List.filter, hpf]
  have hexp1 : expireDisablement now st primary = st := expireDisablement_none now st primary hpd
  have hdis1 : isDisabledB now st primary = false := by simp [isDisabledB, hpd]
  set st2 := registerFailure primary now st primary with hst2
  have hfd2 : st2.disabled_until f = none := by
    rw [hst2, (registerFailure_other primary now st primary f hpf).2, hfd]
  have hexp2 : expireDisablement now st2 f = st2 := expireDisablement_none now st2 f hfd2
  have hdis2 : isDisabledB now st2 f = false := by simp [isDisabledB, hfd2]
  have hrun : managerComplete primary (f :: rest) configured behavior flags now st
      = ⟨some ⟨c, tcs, f⟩, resetFailure st2 f, [primary, f]⟩ := by
    unfold managerComplete
    rw [if_pos hpc, hfilter]
    show completeAux primary configured behavior flags now
      (primary :: f :: rest.filter (fun p => p ≠ primary)) st [] = _
    unfold completeAux
    rw [if_pos hpc]
    simp only [hexp1, hdis1, Bool.false_eq_true, if_false, hpb]
    unfold completeAux
    rw [if_pos hfc]
    simp only [← hst2, hexp2, hdis2, Bool.false_eq_true, if_false, hfb, hok, if_true]
    simp
  have hcount2 : st2.failure_counts primary = st.failure_counts primary + 1 :=
    (registerFailure_self primary now st primary).1
  have hfp : primary ≠ f := fun h => hpf h.symm
  refine ⟨by rw [hrun], by rw [hrun], ?_, ?_, ?_, ?_, ?_, ?_⟩
  · rw [hrun]
    show (resetFailure st2 f).failure_counts primary = _
    rw [(resetFailure_other st2 f primary hfp).1, hcount2]
  · intro hth
    rw [hrun]
    show (resetFailure st2 f).disabled_until primary = _
    rw [(resetFailure_other st2 f primary hfp).2, hst2,
      (registerFailure_self primary now st primary).2]
    simp [hth]
  · intro hth
    rw [hrun]
    show (resetFailure st2 f).disabled_until primary = _
    rw [(resetFailure_other st2 f primary hfp).2, hst2,
      (registerFailure_self primary now st primary).2]
    have : ¬ st.failure_counts primary + 1 ≥ 2 := Nat.not_le.mpr hth
    simp [this]
  · rw [hrun]
    show (resetFailure st2 f).failure_counts f = 0
    simp [resetFailure]
  · rw [hrun]
    show (resetFailure st2 f).disabled_until f = none
    simp [resetFailure]
  · intro p t hd ht
    have : p ∉ (completeAux primary configured behavior flags now
        (primary :: (f :: rest).filter (fun q => q ≠ primary)) st []).attempted :=
      completeAux_skips_disabled primary configured behavior flags now p t _ st [] hd ht
        (by simp)
    unfold managerComplete
    rw [if_pos hpc]
    exact this

/-- Witness for `complete_fallback_and_circuit`: openai (primary, one prior
failure) raises, gemini succeeds; the result is tagged gemini, the counter
reaches 2 and openai is disabled until 400 = 100 + 300 seconds. -/
theorem complete_fallback_and_circuit_witness :
    (managerComplete .openai [.gemini] (fun _ => true)
      (fun p => if p = .openai then .raise else .ok "hello" [])
      { require_content := true } 100
      { failure_counts := fun _ => 1, disabled_until := fun _ => none }).result
      = some ⟨"hello", [], .gemini⟩ ∧
    (managerComplete .openai [.gemini] (fun _ => true)
      (fun p => if p = .openai then .raise else .ok "hello" [])
      { require_content := true } 100
      { failure_counts := fun _ => 1, disabled_until := fun _ => none }).state.disabled_until .openai
      = some 400 := by
  have h := complete_fallback_and_circuit .openai .gemini []
    (fun _ => true) (fun p => if p = .openai then .raise else .ok "hello" [])
    { require_content := true } 100
    { failure_counts := fun _ => 1, disabled_until := fun _ => none }
    (by decide) rfl rfl rfl rfl (by decide) "hello" [] (by decide) (by decide)
  exact ⟨h.1, h.2.2.2.1 (by decide)⟩

theorem isToolAllowed_ungated (s : GateState) (n t : String)
    (h1 : n ≠ "github_search") (h2 : n ≠ "arxiv_search") :
    isToolAllowed s n t = (true, "", s) := by
  simp [isToolAllowed, h1, h2]

/-- C6: whenever the Finish Guard is consulted and its completion call raises,
or returns output the parser cannot turn into a JSON decision (no
`allow_finish` field recovered), the guard verdict defaults to approve, and a
pending `finish` processed under that guard outcome is honored: the session
is marked done. -/
theorem guard_failure_defaults_to_approve
    (jp : String → Option GuardDecision) (sp lp : String → Option Payload)
    (query thought : String) (idx : Nat) (tc : ToolCall) (rest : List ToolCall)
    (envs : List CallEnv) (st : LoopState) (call : GuardCallResult)
    (hname : tc.name = "finish")
    (henv : (envs.headD DEFAULT_CALL_ENV).guard = call)
    (h : call = .raise ∨
      ∃ c, call = .ok c ∧ (parseGuardResponse jp c).allow_finish = none) :
    (runFinishGuard jp call).1 = true ∧
    (processCalls jp sp lp query thought idx (tc :: rest) envs st).1.done = true := by
  have hguard : (runFinishGuard jp call).1 = true := by
    rcases h with h | ⟨c, hc, hp⟩
    · subst h; rfl
    · subst hc; simp [runFinishGuard, hp]
  refine ⟨hguard, ?_⟩
  have hgate : isToolAllowed st.gate "finish" thought = (true, "", st.gate) :=
    isToolAllowed_ungated st.gate "finish" thought (by decide) (by decide)
  simp only [processCalls, hname, henv, hguard]
  simp [hgate, hguard]

/-- Witness for `guard_failure_defaults_to_approve`: a guard reply of
`not json` (unparsable) approves the pending finish and completes the
session step. -/
theorem guard_failure_defaults_to_approve_witness :
    (runFinishGuard (fun _ => none) (.ok (some "not json"))).1 = true ∧
    (processCalls (fun _ => none) (fun _ => none) (fun _ => none) "q" "t" 0
      [⟨"c1", "finish", "a"⟩] [{ guard := .ok (some "not json") }]
      { history := [], gate := { policy := deriveToolPolicy "q" } }).1.done = true :=
  guard_failure_defaults_to_approve (fun _ => none) (fun _ => none) (fun _ => none)
    "q" "t" 0 ⟨"c1", "finish", "a"⟩ [] [{ guard := .ok (some "not json") }]
    { history := [], gate := { policy := deriveToolPolicy "q" } }
    (.ok (some "not json")) rfl rfl
    (Or.inr ⟨some "not json", rfl, by decide⟩)

/-- C8 counterexample: in one session with alternating sparse web searches
for the distinct literal queries Q and B (each returning 1 result, below the
threshold of 2), the query Q receives TWO refinement hints, because
suppression only compares against the most recently hinted query. -/
theorem sparse_hint_counterexample :
    (runSession (fun _ => none)
      (fun s => if s = "QA" then some { query := some "latest X trends" }
        else if s = "QB" then some { query := some "B" } else none)
      (fun _ => none)
      { query := "latest X trends", max_iterations := 5 }
      [ { llm := .ok "t" [⟨"c", "web_search", "QA"⟩], calls := [{ exec := .ok "obs" 1 }] },
        { llm := .ok "t" [⟨"c", "web_search", "QB"⟩], calls := [{ exec := .ok "obs" 1 }] },
        { llm := .ok "t" [⟨"c", "web_search", "QA"⟩], calls := [{ exec := .ok "obs" 1 }] } ]
      {}).sparse_hints = ["latest X trends", "B", "latest X trends"] ∧
    (runSession (fun _ => none)
      (fun s => if s = "QA" then some { query := some "latest X trends" }
        else if s = "QB" then some { query := some "B" } else none)
      (fun _ => none)
      { query := "latest X trends", max_iterations := 5 }
      [ { llm := .ok "t" [⟨"c", "web_search", "QA"⟩], calls := [{ exec := .ok "obs" 1 }] },
        { llm := .ok "t" [⟨"c", "web_search", "QB"⟩], calls := [{ exec := .ok "obs" 1 }] },
        { llm := .ok "t" [⟨"c", "web_search", "QA"⟩], calls := [{ exec := .ok "obs" 1 }] } ]
      {}).sparse_hints.count "latest X trends" = 2 := by
  constructor
  · decide
  · decide

/-- C8 amended: a sparse-results hint is injected only when the result count
is at or below the effective threshold and the query is nonempty and differs
from the MOST RECENTLY hinted sparse query; a first sparse search for a query
injects a hint, and an identical immediately-following sparse search injects
none. Suppression compares only against the last hinted query, not against
every query hinted earlier in the session. -/
theorem sparse_hint_amended (thr : Nat) (ri : String) (last : Option String)
    (q : String) (c c2 : Nat) :
    ((handleSparseWebResults thr ri last (some q) (some c)).1.isSome = true →
      c ≤ max 1 thr ∧ last ≠ some q ∧ q ≠ "") ∧
    (handleSparseWebResults thr ri (some q) (some q) (some c2)).1 = none ∧
    (c ≤ max 1 thr → q ≠ "" → last ≠ some q →
      (handleSparseWebResults thr ri last (some q) (some c)).1.isSome = true ∧
      (handleSparseWebResults thr ri last (some q) (some c)).2 = some q) := by
  unfold handleSparseWebResults
  refine ⟨?_, ?_, ?_⟩
  · intro h
    by_cases hgt : c > max 1 thr
    · simp [hgt] at h
    · by_cases hq : q = "" ∨ last = some q
      · simp [hgt, hq] at h
      · push_neg at hq
        exact ⟨Nat.le_of_not_lt hgt, hq.2, hq.1⟩
  · by_cases hgt : c2 > max 1 thr
    · simp [hgt]
    · simp [hgt]
  · intro hle hq hlast
    have hgt : ¬ c > max 1 thr := Nat.not_lt.mpr hle
    have hq2 : ¬ (q = "" ∨ last = some q) := by
      rintro (h | h)
      · exact hq h
      · exact hlast h
    simp [hgt, hq2]

/-- Witness for `sparse_hint_amended` at the concrete fresh-intent scenario
from the spec (threshold 2, first search returns 1 result). -/
theorem sparse_hint_amended_witness :
    ((handleSparseWebResults 2 "fresh" none (some "latest X trends") (some 1)).1.isSome = true →
      1 ≤ max 1 2 ∧ (none : Option String) ≠ some "latest X trends" ∧ "latest X trends" ≠ "") ∧
    (handleSparseWebResults 2 "fresh" (some "latest X trends") (some "latest X trends") (some 1)).1 = none ∧
    (1 ≤ max 1 2 → "latest X trends" ≠ "" → (none : Option String) ≠ some "latest X trends" →
      (handleSparseWebResults 2 "fresh" none (some "latest X trends") (some 1)).1.isSome = true ∧
      (handleSparseWebResults 2 "fresh" none (some "latest X trends") (some 1)).2 = some "latest X trends") :=
  sparse_hint_amended 2 "fresh" none "latest X trends" 1 1

/-- C10: when the history ends with an assistant message holding two or more
tool calls followed by a single tool-result message answering a tool call
OTHER than the first, the pruning routine (which compares only the first
tool call id) removes both the tool result and the assistant message. -/
theorem prune_discards_answered_later_call
    (p : List Message) (a t : Message) (c1 c2 : ToolCall) (cs : List ToolCall)
    (tid : String)
    (ha : a.role = .assistant) (hcs : a.tool_calls = c1 :: c2 :: cs)
    (ht : t.role = .tool) (htid : t.tool_call_id = some tid)
    (hne : tid ≠ c1.id) (_hmem : tid ∈ (c2 :: cs).map ToolCall.id) :
    pruneIncompleteToolCalls (p ++ [a, t]) = pruneIncompleteToolCalls p := by
  unfold pruneIncompleteToolCalls
  have hrev : (p ++ [a, t]).reverse = t :: a :: p.reverse := by simp
  rw [hrev]
  have hta : isIncompleteAssistant t = false := by
    simp [isIncompleteAssistant, ht]
  have haa : isIncompleteAssistant a = true := by
    simp [isIncompleteAssistant, ha, hcs]
  have hmm : isMismatchedToolReply a t = true := by
    simp [isMismatchedToolReply, ht, ha, hcs, htid]
    exact fun h => hne h.symm
  rw [show pruneRev (t :: a :: p.reverse) = pruneRev (a :: p.reverse) by
    simp [pruneRev, hta, hmm]]
  rw [pruneRev_cons_incomplete a p.reverse haa]

/-- Witness for `prune_discards_answered_later_call` at a concrete turn: two
tool calls, only the second answered; both messages are discarded. -/
theorem prune_discards_answered_later_call_witness :
    pruneIncompleteToolCalls
      [ { role := .assistant, content := "x",
          tool_calls := [⟨"a1", "web_search", ""⟩, ⟨"a2", "arxiv_search", ""⟩] },
        { role := .tool, content := "obs", tool_call_id := some "a2" } ] = [] :=
  prune_discards_answered_later_call []
    { role := .assistant, content := "x",
      tool_calls := [⟨"a1", "web_search", ""⟩, ⟨"a2", "arxiv_search", ""⟩] }
    { role := .tool, content := "obs", tool_call_id := some "a2" }
    ⟨"a1", "web_search", ""⟩ ⟨"a2", "arxiv_search", ""⟩ [] "a2"
    rfl rfl rfl rfl (by decide) (by decide)

/-- Packed invariant facts about the state after the forced-request setup:
only the history, the request log and the forced-call counter change, and
the one recorded request is pruning-safe. -/
theorem forceFinishSetup_pack (st : LoopState) :
    (forceFinishSetup st).iteration = st.iteration ∧
    (forceFinishSetup st).error = st.error ∧
    (forceFinishSetup st).steps = st.steps ∧
    (forceFinishSetup st).gate = st.gate ∧
    (forceFinishSetup st).done = st.done ∧
    st.forced_calls + 1 ≤ (forceFinishSetup st).forced_calls ∧
    (forceFinishSetup st).forced_calls ≤ st.forced_calls + 2 ∧
    ∀ c ∈ (forceFinishSetup st).requests,
      c ∈ st.requests ∨ endsWithUnresolvedToolCalls c = false := by
  refine ⟨rfl, rfl, rfl, rfl, rfl, Nat.le_refl _, Nat.le_succ _, ?_⟩
  obtain ⟨-, -, -, -, -, -, -, hreq, hsafe⟩ := forceFinishSetup_components st
  intro c hc
  rw [hreq] at hc
  rcases List.mem_append.mp hc with h | h
  · exact Or.inl h
  · rw [List.mem_singleton.mp h]
    exact Or.inr hsafe

/-- The requests after the setup plus the recorded guard conversation are
all pruning-safe (relative to the pre-force request log). -/
theorem forceFinish_guard_requests_safe (st : LoopState) (q : String) (a : Payload) :
    ∀ c ∈ (forceFinishSetup st).requests ++ [buildGuardMessages q a],
      c ∈ st.requests ∨ endsWithUnresolvedToolCalls c = false := by
  intro c hc
  rcases List.mem_append.mp hc with h | h
  · exact (forceFinishSetup_pack st).2.2.2.2.2.2.2 c h
  · rw [List.mem_singleton.mp h]
    exact Or.inr (buildGuardMessages_ok q a)

/-- Packed invariant facts about the feedback-retry state, relative to the
original pre-force state: the forced-call counter lands at exactly two above
it and all recorded requests remain pruning-safe. -/
theorem retrySetup_pack (fb : String) (hint : Option String) (st0 s2 : LoopState)
    (hiter : s2.iteration = st0.iteration) (herr : s2.error = st0.error)
    (hsteps : s2.steps = st0.steps) (hgate : s2.gate = st0.gate)
    (hdone : s2.done = st0.done) (hf : s2.forced_calls = st0.forced_calls + 1)
    (hreq : ∀ c ∈ s2.requests, c ∈ st0.requests ∨ endsWithUnresolvedToolCalls c = false) :
    (retrySetup fb hint s2).iteration = st0.iteration ∧
    (retrySetup fb hint s2).error = st0.error ∧
    (retrySetup fb hint s2).steps = st0.steps ∧
    (retrySetup fb hint s2).gate = st0.gate ∧
    (retrySetup fb hint s2).done = st0.done ∧
    st0.forced_calls + 1 ≤ (retrySetup fb hint s2).forced_calls ∧
    (retrySetup fb hint s2).forced_calls ≤ st0.forced_calls + 2 ∧
    ∀ c ∈ (retrySetup fb hint s2).requests,
      c ∈ st0.requests ∨ endsWithUnresolvedToolCalls c = false := by
  obtain ⟨r1, r2, r3, r4, r5, r6, r7, req, hr, hs⟩ := retrySetup_components fb hint s2
  refine ⟨by rw [r1, hiter], by rw [r2, herr], by rw [r3, hsteps], by rw [r4, hgate],
    by rw [r6, hdone], by omega, by omega, ?_⟩
  intro c hc
  rw [hr] at hc
  rcases List.mem_append.mp hc with h | h
  · exact hreq c h
  · rw [List.mem_singleton.mp h]
    exact Or.inr hs

/-- Invariants of `_force_finish_if_needed`: it preserves the iteration
counter, the stored error, the recorded steps, the gating state and the done
flag; it issues one forced request plus at most one feedback retry (the
forced-call counter rises by one or two); and every conversation it records
(forced request, guard conversation, retry request) is pruning-safe. -/
theorem forceFinish_invariants (jp : String → Option GuardDecision)
    (sp : String → Option Payload) (cfg : SessionConfig) (fenv : ForceEnv)
    (it : Nat) (st : LoopState) :
    (forceFinish jp sp cfg fenv it st).2.2.2.2.iteration = st.iteration ∧
    (forceFinish jp sp cfg fenv it st).2.2.2.2.error = st.error ∧
    (forceFinish jp sp cfg fenv it st).2.2.2.2.steps = st.steps ∧
    (forceFinish jp sp cfg fenv it st).2.2.2.2.gate = st.gate ∧
    (forceFinish jp sp cfg fenv it st).2.2.2.2.done = st.done ∧
    st.forced_calls + 1 ≤ (forceFinish jp sp cfg fenv it st).2.2.2.2.forced_calls ∧
    (forceFinish jp sp cfg fenv it st).2.2.2.2.forced_calls ≤ st.forced_calls + 2 ∧
    ∀ c ∈ (forceFinish jp sp cfg fenv it st).2.2.2.2.requests,
      c ∈ st.requests ∨ endsWithUnresolvedToolCalls c = false := by
  unfold forceFinish
  dsimp only
  cases hl : fenv.llm with
  | raise m => exact forceFinishSetup_pack st
  | ok content tcs =>
    cases tcs with
    | nil => exact forceFinishSetup_pack st
    | cons fc rest =>
      dsimp only
      cases hsp : sp fc.arguments with
      | none => exact forceFinishSetup_pack st
      | some args0 =>
        dsimp only
        by_cases hge : cfg.finish_guard_enabled = true
        · rw [if_pos hge]
          have key := retrySetup_pack (runFinishGuard jp fenv.guard).2.1
            (runFinishGuard jp fenv.guard).2.2 st
            { forceFinishSetup st with requests :=
                (forceFinishSetup st).requests ++ [buildGuardMessages cfg.query args0] }
            rfl rfl rfl rfl rfl rfl
            (forceFinish_guard_requests_safe st cfg.query args0)
          by_cases hrt : (runFinishGuard jp fenv.guard).1 = false ∧
              cfg.finish_guard_retry_on_auto_finish = true
          · rw [if_pos hrt]
            cases hr2 : fenv.retry with
            | raise m2 => exact key
            | ok c2 tcs2 =>
              dsimp only
              cases tcs2 with
              | nil => exact key
              | cons fc2 rest2 =>
                dsimp only
                cases hsp2 : sp fc2.arguments with
                | none => exact key
                | some args2 => exact key
          · rw [if_neg hrt]
            exact ⟨rfl, rfl, rfl, rfl, rfl, Nat.le_refl _, Nat.le_succ _,
              forceFinish_guard_requests_safe st cfg.query args0⟩
        · rw [if_neg hge]
          exact forceFinishSetup_pack st

/-- The status a result can carry is one of exactly three strings. -/
theorem mkResult_status_cases (st : LoopState) (a : Bool) :
    (mkResult st a).status = "completed" ∨ (mkResult st a).status = "failed" ∨
    (mkResult st a).status = "incomplete" := by
  unfold mkResult
  dsimp only
  split_ifs with h1 h2
  · exact Or.inl rfl
  · exact Or.inr (Or.inl rfl)
  · exact Or.inr (Or.inr rfl)

/-- A result built from a done state reports completed. -/
theorem mkResult_status_of_done (st : LoopState) (a : Bool) (h : st.done = true) :
    (mkResult st a).status = "completed" := by
  unfold mkResult
  dsimp only
  rw [if_pos h]

/-- A result built from a not-done state reports failed when an error was
recorded and incomplete otherwise. -/
theorem mkResult_status_general (st : LoopState) (a : Bool) (e : Option String)
    (hd : st.done = false) (he : st.error = e) :
    (mkResult st a).status = (if e.isSome then "failed" else "incomplete") := by
  unfold mkResult
  dsimp only
  rw [if_neg (by simp [hd]), he]

/-- The post-loop tail never changes the gating state. -/
theorem sessionPostLoop_gate (jp : String → Option GuardDecision)
    (sp : String → Option Payload) (cfg : SessionConfig) (fenv : ForceEnv)
    (st : LoopState) :
    (sessionPostLoop jp sp cfg fenv st).gate = st.gate := by
  obtain ⟨f1, f2, f3, f4, f5, f6, f7, f8⟩ :=
    forceFinish_invariants jp sp cfg fenv (st.iteration + 1) st
  unfold sessionPostLoop
  dsimp only
  by_cases hd : st.done = false
  · rw [if_pos hd]
    by_cases hs : st.steps.isEmpty = true
    · rw [if_pos hs]
      rfl
    · rw [if_neg hs]
      rcases hm : (forceFinish jp sp cfg fenv (st.iteration + 1) st).2.2.2.1 with _ | s
      · simp only [hm]
        exact f4
      · simp only [hm]
        by_cases hf1 : (forceFinish jp sp cfg fenv (st.iteration + 1) st).1 = true
        · rw [if_pos hf1]
          exact f4
        · rw [if_neg hf1]
          exact f4
  · rw [if_neg hd]
    rfl

/-- The post-loop tail only adds pruning-safe requests (the forced finish
conversations). -/
theorem sessionPostLoop_requests_safe (jp : String → Option GuardDecision)
    (sp : String → Option Payload) (cfg : SessionConfig) (fenv : ForceEnv)
    (st : LoopState)
    (hst : ∀ c ∈ st.requests, endsWithUnresolvedToolCalls c = false) :
    ∀ c ∈ (sessionPostLoop jp sp cfg fenv st).requests,
      endsWithUnresolvedToolCalls c = false := by
  obtain ⟨f1, f2, f3, f4, f5, f6, f7, f8⟩ :=
    forceFinish_invariants jp sp cfg fenv (st.iteration + 1) st
  have hff : ∀ c ∈ (forceFinish jp sp cfg fenv (st.iteration + 1) st).2.2.2.2.requests,
      endsWithUnresolvedToolCalls c = false := by
    intro c hc
    rcases f8 c hc with h | h
    · exact hst c h
    · exact h
  unfold sessionPostLoop
  dsimp only
  by_cases hd : st.done = false
  · rw [if_pos hd]
    by_cases hs : st.steps.isEmpty = true
    · rw [if_pos hs]
      exact hst
    · rw [if_neg hs]
      rcases hm : (forceFinish jp sp cfg fenv (st.iteration + 1) st).2.2.2.1 with _ | s
      · simp only [hm]
        exact hff
      · simp only [hm]
        by_cases hf1 : (forceFinish jp sp cfg fenv (st.iteration + 1) st).1 = true
        · rw [if_pos hf1]
          exact hff
        · rw [if_neg hf1]
          exact hff
  · rw [if_neg hd]
    exact hst

/-- The post-loop tail keeps the iteration count, or raises it by exactly one
while marking the forced auto-finish as succeeded. -/
theorem sessionPostLoop_iterations (jp : String → Option GuardDecision)
    (sp : String → Option Payload) (cfg : SessionConfig) (fenv : ForceEnv)
    (st : LoopState) :
    (sessionPostLoop jp sp cfg fenv st).total_iterations = st.iteration ∨
    ((sessionPostLoop jp sp cfg fenv st).total_iterations = st.iteration + 1 ∧
     (sessionPostLoop jp sp cfg fenv st).auto_finish_succeeded = true) := by
  obtain ⟨f1, f2, f3, f4, f5, f6, f7, f8⟩ :=
    forceFinish_invariants jp sp cfg fenv (st.iteration + 1) st
  unfold sessionPostLoop
  dsimp only
  by_cases hd : st.done = false
  · rw [if_pos hd]
    by_cases hs : st.steps.isEmpty = true
    · rw [if_pos hs]
      exact Or.inl rfl
    · rw [if_neg hs]
      rcases hm : (forceFinish jp sp cfg fenv (st.iteration + 1) st).2.2.2.1 with _ | s
      · simp only [hm]
        exact Or.inl f1
      · simp only [hm]
        by_cases hf1 : (forceFinish jp sp cfg fenv (st.iteration + 1) st).1 = true
        · rw [if_pos hf1]
          exact Or.inr ⟨rfl, hf1⟩
        · rw [if_neg hf1]
          exact Or.inl f1
  · rw [if_neg hd]
    exact Or.inl rfl

/-- The status computed by the post-loop tail is always one of the three
reachable strings. -/
theorem sessionPostLoop_status_cases (jp : String → Option GuardDecision)
    (sp : String → Option Payload) (cfg : SessionConfig) (fenv : ForceEnv)
    (st : LoopState) :
    (sessionPostLoop jp sp cfg fenv st).status = "completed" ∨
    (sessionPostLoop jp sp cfg fenv st).status = "failed" ∨
    (sessionPostLoop jp sp cfg fenv st).status = "incomplete" := by
  unfold sessionPostLoop
  dsimp only
  by_cases hd : st.done = false
  · rw [if_pos hd]
    by_cases hs : st.steps.isEmpty = true
    · rw [if_pos hs]
      exact mkResult_status_cases st false
    · rw [if_neg hs]
      rcases hm : (forceFinish jp sp cfg fenv (st.iteration + 1) st).2.2.2.1 with _ | s
      · simp only [hm]
        exact mkResult_status_cases _ _
      · simp only [hm]
        by_cases hf1 : (forceFinish jp sp cfg fenv (st.iteration + 1) st).1 = true
        · rw [if_pos hf1]
          exact mkResult_status_cases _ _
        · rw [if_neg hf1]
          exact mkResult_status_cases _ _
  · rw [if_neg hd]
    exact mkResult_status_cases st false

/-- Forced-finish accounting of the post-loop tail when the loop ended
without an approved finish: no step means no forced request at all; with a
step the forced-call counter rises by one or two, success reports completed,
failure reports failed or incomplete according to the recorded error. -/
theorem sessionPostLoop_forced (jp : String → Option GuardDecision)
    (sp : String → Option Payload) (cfg : SessionConfig) (fenv : ForceEnv)
    (st : LoopState) (hdone : st.done = false) :
    (st.steps = [] →
      (sessionPostLoop jp sp cfg fenv st).forced_calls = st.forced_calls ∧
      (sessionPostLoop jp sp cfg fenv st).status =
        (if st.error.isSome then "failed" else "incomplete")) ∧
    (st.steps ≠ [] →
      (st.forced_calls + 1 ≤ (sessionPostLoop jp sp cfg fenv st).forced_calls ∧
       (sessionPostLoop jp sp cfg fenv st).forced_calls ≤ st.forced_calls + 2) ∧
      ((sessionPostLoop jp sp cfg fenv st).auto_finish_succeeded = true →
        (sessionPostLoop jp sp cfg fenv st).status = "completed") ∧
      ((sessionPostLoop jp sp cfg fenv st).auto_finish_succeeded = false →
        (sessionPostLoop jp sp cfg fenv st).status =
          (if st.error.isSome then "failed" else "incomplete"))) := by
  obtain ⟨f1, f2, f3, f4, f5, f6, f7, f8⟩ :=
    forceFinish_invariants jp sp cfg fenv (st.iteration + 1) st
  unfold sessionPostLoop
  dsimp only
  rw [if_pos hdone]
  constructor
  · intro hsteps
    have hs : st.steps.isEmpty = true := by simp [hsteps]
    rw [if_pos hs]
    exact ⟨rfl, mkResult_status_general st false st.error hdone rfl⟩
  · intro hsteps
    have hs : ¬ st.steps.isEmpty = true := by
      intro h
      cases hst2 : st.steps with
      | nil => exact hsteps hst2
      | cons a l =>
        rw [hst2] at h
        simp at h
    rw [if_neg hs]
    rcases hm : (forceFinish jp sp cfg fenv (st.iteration + 1) st).2.2.2.1 with _ | s
    · simp only [hm]
      refine ⟨⟨f6, f7⟩, ?_, ?_⟩
      · intro hauto
        exact mkResult_status_of_done _ _ hauto
      · intro hauto
        exact mkResult_status_general _ _ st.error hauto f2
    · simp only [hm]
      by_cases hf1 : (forceFinish jp sp cfg fenv (st.iteration + 1) st).1 = true
      · rw [if_pos hf1]
        refine ⟨⟨f6, f7⟩, ?_, ?_⟩
        · intro _
          exact mkResult_status_of_done _ _ hf1
        · intro hauto
          have hcontr : (forceFinish jp sp cfg fenv (st.iteration + 1) st).1 = false := hauto
          rw [hf1] at hcontr
          exact absurd hcontr (by decide)
      · rw [if_neg hf1]
        refine ⟨⟨f6, f7⟩, ?_, ?_⟩
        · intro hauto
          have hcontr : (forceFinish jp sp cfg fenv (st.iteration + 1) st).1 = true := hauto
          exact absurd hcontr hf1
        · intro hauto
          exact mkResult_status_general _ _ st.error hauto f2

/-- C1: for every research session the returned total iteration count is at
most max_iterations + 1, and it exceeds max_iterations only when the single
forced auto-finish attempt issued after the loop succeeded. -/
theorem total_iterations_bound (jp : String → Option GuardDecision)
    (sp lp : String → Option Payload) (cfg : SessionConfig)
    (iters : List IterEnv) (fenv : ForceEnv) :
    (runSession jp sp lp cfg iters fenv).total_iterations ≤ cfg.max_iterations + 1 ∧
    (cfg.max_iterations < (runSession jp sp lp cfg iters fenv).total_iterations →
      (runSession jp sp lp cfg iters fenv).auto_finish_succeeded = true) := by
  have h1 := (runLoop_invariants jp sp lp cfg iters (initialState cfg)).1
  have h0 : (initialState cfg).iteration = 0 := rfl
  rw [h0] at h1
  have hit : (runLoop jp sp lp cfg iters (initialState cfg)).iteration ≤ cfg.max_iterations := by
    omega
  have hpc := sessionPostLoop_iterations jp sp cfg fenv
    (runLoop jp sp lp cfg iters (initialState cfg))
  constructor
  · rcases hpc with h | ⟨h, -⟩
    · have hq : (runSession jp sp lp cfg iters fenv).total_iterations =
        (runLoop jp sp lp cfg iters (initialState cfg)).iteration := h
      omega
    · have hq : (runSession jp sp lp cfg iters fenv).total_iterations =
        (runLoop jp sp lp cfg iters (initialState cfg)).iteration + 1 := h
      omega
  · intro hgt
    rcases hpc with h | ⟨-, ha⟩
    · have hq : (runSession jp sp lp cfg iters fenv).total_iterations =
        (runLoop jp sp lp cfg iters (initialState cfg)).iteration := h
      exact absurd hgt (by omega)
    · exact ha

/-- C2: every conversation a session hands to the completion layer — the
loop requests, the Finish Guard conversations and the forced-finish
requests — never ends with an assistant message carrying unresolved tool
calls. -/
theorem no_request_ends_unresolved (jp : String → Option GuardDecision)
    (sp lp : String → Option Payload) (cfg : SessionConfig)
    (iters : List IterEnv) (fenv : ForceEnv) (c : List Message)
    (hc : c ∈ (runSession jp sp lp cfg iters fenv).requests) :
    endsWithUnresolvedToolCalls c = false := by
  have hL := (runLoop_invariants jp sp lp cfg iters (initialState cfg)).2.2.2.2.2
  have hsafe : ∀ x ∈ (runLoop jp sp lp cfg iters (initialState cfg)).requests,
      endsWithUnresolvedToolCalls x = false := by
    intro x hx
    rcases hL x hx with h | h
    · exact absurd (show x ∈ ([] : List (List Message)) from h) (List.not_mem_nil x)
    · exact h
  exact sessionPostLoop_requests_safe jp sp cfg fenv
    (runLoop jp sp lp cfg iters (initialState cfg)) hsafe c hc

set_option maxRecDepth 10000 in
/-- Witness for the request invariant at a concrete one-iteration session:
its first recorded request satisfies the invariant. -/
theorem no_request_ends_unresolved_witness :
    (runSession (fun _ => none) (fun _ => none) (fun _ => none)
        { query := "weather in bergen" } [{}] {}).requests.headD [] ∈
      (runSession (fun _ => none) (fun _ => none) (fun _ => none)
        { query := "weather in bergen" } [{}] {}).requests ∧
    endsWithUnresolvedToolCalls
      ((runSession (fun _ => none) (fun _ => none) (fun _ => none)
        { query := "weather in bergen" } [{}] {}).requests.headD []) = false :=
  ⟨by decide,
   no_request_ends_unresolved (fun _ => none) (fun _ => none) (fun _ => none)
     { query := "weather in bergen" } [{}] {}
     ((runSession (fun _ => none) (fun _ => none) (fun _ => none)
       { query := "weather in bergen" } [{}] {}).requests.headD []) (by decide)⟩

/-- C3: the session status is always one of completed, failed, incomplete —
a status timeout is unreachable; a session whose first iteration hits the
wall-clock timeout check instead records the error Timeout exceeded and
reports status failed, diverging from the claimed timeout status. -/
theorem status_never_timeout :
    (∀ (jp : String → Option GuardDecision) (sp lp : String → Option Payload)
       (cfg : SessionConfig) (iters : List IterEnv) (fenv : ForceEnv),
      (runSession jp sp lp cfg iters fenv).status = "completed" ∨
      (runSession jp sp lp cfg iters fenv).status = "failed" ∨
      (runSession jp sp lp cfg iters fenv).status = "incomplete") ∧
    (runSession (fun _ => none) (fun _ => none) (fun _ => none)
      { query := "weather in bergen" } [{ timeout_hit := true }] {}).status = "failed" ∧
    (runSession (fun _ => none) (fun _ => none) (fun _ => none)
      { query := "weather in bergen" } [{ timeout_hit := true }] {}).error =
        some "Timeout exceeded" := by
  refine ⟨?_, by decide, by decide⟩
  intro jp sp lp cfg iters fenv
  exact sessionPostLoop_status_cases jp sp cfg fenv
    (runLoop jp sp lp cfg iters (initialState cfg))

/-- C4 counterexample: with the iteration budget exhausted and no recorded
step, the code issues NO forced finish request (the forced-call counter
stays zero) and returns status incomplete — not the one forced request and
the failed status the claim demands for the no-observation case. -/
theorem forced_finish_counterexample :
    (runSession (fun _ => none) (fun _ => none) (fun _ => none)
      { query := "weather in bergen", max_iterations := 1 }
      [{ llm := .ok "just thinking" [] }] {}).forced_calls = 0 ∧
    (runSession (fun _ => none) (fun _ => none) (fun _ => none)
      { query := "weather in bergen", max_iterations := 1 }
      [{ llm := .ok "just thinking" [] }] {}).status = "incomplete" ∧
    (runSession (fun _ => none) (fun _ => none) (fun _ => none)
      { query := "weather in bergen", max_iterations := 1 }
      [{ llm := .ok "just thinking" [] }] {}).steps = [] ∧
    (runSession (fun _ => none) (fun _ => none) (fun _ => none)
      { query := "weather in bergen", max_iterations := 1 }
      [{ llm := .ok "just thinking" [] }] {}).error = none :=
  ⟨by decide, by decide, by decide, by decide⟩

/-- C4 amended: when the loop ends without an approved finish, the forced
finish is attempted only when at least one step was recorded; then one
forced request (plus at most one guard feedback retry) is issued, success
yields status completed, and failure yields failed when an error was
recorded and incomplete otherwise; with no recorded step no forced request
is issued at all and the same error-based status results. -/
theorem forced_finish_amended (jp : String → Option GuardDecision)
    (sp lp : String → Option Payload) (cfg : SessionConfig)
    (iters : List IterEnv) (fenv : ForceEnv) (L : LoopState)
    (hL : L = runLoop jp sp lp cfg iters (initialState cfg))
    (hdone : L.done = false) :
    (L.steps = [] →
      (runSession jp sp lp cfg iters fenv).forced_calls = 0 ∧
      (runSession jp sp lp cfg iters fenv).status =
        (if L.error.isSome then "failed" else "incomplete")) ∧
    (L.steps ≠ [] →
      ((runSession jp sp lp cfg iters fenv).forced_calls = 1 ∨
       (runSession jp sp lp cfg iters fenv).forced_calls = 2) ∧
      ((runSession jp sp lp cfg iters fenv).auto_finish_succeeded = true →
        (runSession jp sp lp cfg iters fenv).status = "completed") ∧
      ((runSession jp sp lp cfg iters fenv).auto_finish_succeeded = false →
        (runSession jp sp lp cfg iters fenv).status =
          (if L.error.isSome then "failed" else "incomplete"))) := by
  subst hL
  have hforced0 : (runLoop jp sp lp cfg iters (initialState cfg)).forced_calls = 0 :=
    ((runLoop_invariants jp sp lp cfg iters (initialState cfg)).2.1).trans rfl
  obtain ⟨hempty, hstep⟩ := sessionPostLoop_forced jp sp cfg fenv
    (runLoop jp sp lp cfg iters (initialState cfg)) hdone
  constructor
  · intro hs
    obtain ⟨h1, h2⟩ := hempty hs
    refine ⟨?_, h2⟩
    exact h1.trans hforced0
  · intro hs
    obtain ⟨⟨hlo, hhi⟩, hca, hcb⟩ := hstep hs
    refine ⟨?_, hca, hcb⟩
    show (sessionPostLoop jp sp cfg fenv
        (runLoop jp sp lp cfg iters (initialState cfg))).forced_calls = 1 ∨
      (sessionPostLoop jp sp cfg fenv
        (runLoop jp sp lp cfg iters (initialState cfg))).forced_calls = 2
    omega

/-- Witness for the amended forced-finish behaviour at a concrete session
with one recorded step whose forced auto-finish succeeds: exactly one forced
request is issued and the run counts as completed. -/
theorem forced_finish_amended_witness :
    (runLoop (fun _ => none) spWitness (fun _ => none) cfgWitness [iterWitness]
      (initialState cfgWitness)).done = false ∧
    (runLoop (fun _ => none) spWitness (fun _ => none) cfgWitness [iterWitness]
      (initialState cfgWitness)).steps ≠ [] ∧
    ((runSession (fun _ => none) spWitness (fun _ => none) cfgWitness [iterWitness]
        fenvWitness).forced_calls = 1 ∨
     (runSession (fun _ => none) spWitness (fun _ => none) cfgWitness [iterWitness]
        fenvWitness).forced_calls = 2) ∧
    (runSession (fun _ => none) spWitness (fun _ => none) cfgWitness [iterWitness]
      fenvWitness).status = "completed" :=
  ⟨by decide, by decide,
   ((forced_finish_amended (fun _ => none) spWitness (fun _ => none) cfgWitness
      [iterWitness] fenvWitness _ rfl (by decide)).2 (by decide)).1,
   ((forced_finish_amended (fun _ => none) spWitness (fun _ => none) cfgWitness
      [iterWitness] fenvWitness _ rfl (by decide)).2 (by decide)).2.1 (by decide)⟩

/-- C7: a gated specialized tool call is allowed exactly when the allow flag
is already set, or at least one prior denial was recorded for the tool, or
the immediately preceding reasoning text carries a qualifying keyword; the
per-session denial counters start at zero and never exceed one, so a gated
tool is blocked at most once — in particular at most twice — per session. -/
theorem gated_tool_grace_policy (s : GateState) (t : String)
    (jp : String → Option GuardDecision) (sp lp : String → Option Payload)
    (cfg : SessionConfig) (iters : List IterEnv) (fenv : ForceEnv) :
    ((isToolAllowed s "github_search" t).1 = true ↔
      (s.policy.allow_github = true ∨ 1 ≤ s.denials_github ∨
        thoughtAllowsTool t GITHUB_KEYWORDS = true)) ∧
    ((isToolAllowed s "arxiv_search" t).1 = true ↔
      (s.policy.allow_arxiv = true ∨ 1 ≤ s.denials_arxiv ∨
        thoughtAllowsTool t ARXIV_KEYWORDS = true)) ∧
    (initialState cfg).gate.denials_github = 0 ∧
    (initialState cfg).gate.denials_arxiv = 0 ∧
    (runSession jp sp lp cfg iters fenv).gate.denials_github ≤ 1 ∧
    (runSession jp sp lp cfg iters fenv).gate.denials_arxiv ≤ 1 := by
  have hgh := (runLoop_invariants jp sp lp cfg iters (initialState cfg)).2.2.2.1
  have hax := (runLoop_invariants jp sp lp cfg iters (initialState cfg)).2.2.2.2.1
  have hg0 : (initialState cfg).gate.denials_github = 0 := rfl
  have ha0 : (initialState cfg).gate.denials_arxiv = 0 := rfl
  rw [hg0] at hgh
  rw [ha0] at hax
  have hgate : (runSession jp sp lp cfg iters fenv).gate =
      (runLoop jp sp lp cfg iters (initialState cfg)).gate :=
    sessionPostLoop_gate jp sp cfg fenv (runLoop jp sp lp cfg iters (initialState cfg))
  refine ⟨?_, ?_, rfl, rfl, ?_, ?_⟩
  · unfold isToolAllowed
    dsimp only
    rw [if_pos rfl]
    split_ifs with h1 h2 h3 <;> simp_all
  · unfold isToolAllowed
    dsimp only
    rw [if_neg (by decide), if_pos rfl]
    split_ifs with h1 h2 h3 <;> simp_all
  · rw [hgate]
    omega
  · rw [hgate]
    omega

/-- C9: a tool call whose argument text is unparsable (the literal text
not json) is repaired by the fallback chain to the raw-arguments payload,
the iteration still records exactly one step for that call, and the session
runs to a normal completion with no escaped error. -/
theorem malformed_arguments_one_step :
    parseToolArguments (fun _ => none) (fun _ => none) "web_search" "not json" =
      { raw_arguments := some "not json" } ∧
    (runSession (fun _ => none) spWitness (fun _ => none)
      { query := "weather in bergen", max_iterations := 5 }
      [ { llm := .ok "t" [⟨"c1", "web_search", "not json"⟩], calls := [{ exec := .ok "obs" 3 }] },
        { llm := .ok "t2" [⟨"c2", "finish", "FIN"⟩], calls := [{ guard := .ok none }] } ]
      {}).steps.head? =
        some ⟨1, "t", "web_search", { raw_arguments := some "not json" }, "obs"⟩ ∧
    (runSession (fun _ => none) spWitness (fun _ => none)
      { query := "weather in bergen", max_iterations := 5 }
      [ { llm := .ok "t" [⟨"c1", "web_search", "not json"⟩], calls := [{ exec := .ok "obs" 3 }] },
        { llm := .ok "t2" [⟨"c2", "finish", "FIN"⟩], calls := [{ guard := .ok none }] } ]
      {}).steps.length = 2 ∧
    (runSession (fun _ => none) spWitness (fun _ => none)
      { query := "weather in bergen", max_iterations := 5 }
      [ { llm := .ok "t" [⟨"c1", "web_search", "not json"⟩], calls := [{ exec := .ok "obs" 3 }] },
        { llm := .ok "t2" [⟨"c2", "finish", "FIN"⟩], calls := [{ guard := .ok none }] } ]
      {}).status = "completed" ∧
    (runSession (fun _ => none) spWitness (fun _ => none)
      { query := "weather in bergen", max_iterations := 5 }
      [ { llm := .ok "t" [⟨"c1", "web_search", "not json"⟩], calls := [{ exec := .ok "obs" 3 }] },
        { llm := .ok "t2" [⟨"c2", "finish", "FIN"⟩], calls := [{ guard := .ok none }] } ]
      {}).error = none :=
  ⟨by decide, by decide, by decide, by decide, by decide⟩

end ResearchAgent
